import Mathlib

/-!
# Raft-3D: the replicated print-farm state machine

A shallow embedding of `raftnode/fsm.go` (the `FSM` type with `Apply`, `Snapshot`,
`Restore`, and `fsmSnapshot.Persist`) and of the write paths of the HTTP handlers in
`routes/`, followed by theorems about them.

Modelling conventions.

* A Go `map[string]V` is a `GoMap V`: a list of key/value pairs read by first match
  and written by replace-or-append.  Two maps are the same Go map when they agree at
  every key (`GoMap.get?`).
* A Go `int` is an `Int`; the one arithmetic operation of the program (the subtraction
  on job completion) wraps to 64 bits through `wrapInt`.
* `encoding/json` is not part of the repository.  `FSM.Apply` is written against an
  arbitrary `Json` codec (a record of the decoding calls that `Apply` makes), so every
  theorem about `Apply` holds whatever the library does.  `treeJson` is one concrete
  codec, working on JSON document trees (`JVal`); it is used for concrete runs and for
  the snapshot encoding.
* The mutex `Mu` is not modelled: every method holds it for its whole body.
-/

namespace Raft3D

/-! ## Go maps -/

/-- A Go `map[string]V`. -/
structure GoMap (V : Type) where
  entries : List (String × V)
deriving DecidableEq, Repr

namespace GoMap

/-- The result of `make(map[string]V)`. -/
def empty {V : Type} : GoMap V := ⟨[]⟩

/-- Lookup in a list of entries: the first entry under the key. -/
def lookup {V : Type} : List (String × V) → String → Option V
  | [], _ => none
  | (k', v) :: m, k => if k' = k then some v else lookup m k

/-- Assignment in a list of entries: replace the entry under the key, or append one. -/
def insert {V : Type} : List (String × V) → String → V → List (String × V)
  | [], k, v => [(k, v)]
  | (k', v') :: m, k, v => if k' = k then (k, v) :: m else (k', v') :: insert m k v

/-- The Go expression `v, ok := m[k]`: `some v` when `ok`, `none` otherwise. -/
def get? {V : Type} (m : GoMap V) (k : String) : Option V := lookup m.entries k

/-- The Go statement `m[k] = v`. -/
def set {V : Type} (m : GoMap V) (k : String) (v : V) : GoMap V := ⟨insert m.entries k v⟩

/-- The keys of the map, in entry order. -/
def keys {V : Type} (m : GoMap V) : List String := m.entries.map Prod.fst

end GoMap

/-! ## Go `int` -/

/-- Two's-complement wrap of an integer to the 64-bit range of Go's `int`. -/
def wrapInt (x : Int) : Int := (x + 2 ^ 63) % 2 ^ 64 - 2 ^ 63

/-- The value fits Go's 64-bit `int`. -/
def IsGoInt (x : Int) : Prop := -(2 ^ 63) ≤ x ∧ x < 2 ^ 63

instance (x : Int) : Decidable (IsGoInt x) := by
  unfold IsGoInt; exact inferInstance

/-! ## Data model (`fsm.go`, lines 20-46) -/

/-- The Go struct `Printer`. -/
structure Printer where
  ID : String
  Company : String
  Model : String
deriving DecidableEq, Repr

/-- The Go struct `Filament`; `Typ` is the Go field `Type`. -/
structure Filament where
  ID : String
  Typ : String
  Color : String
  TotalWeightInGrams : Int
  RemainingWeightInGrams : Int
deriving DecidableEq, Repr

/-- The Go struct `PrintJob`. -/
structure PrintJob where
  ID : String
  PrinterID : String
  FilamentID : String
  Filepath : String
  PrintWeightInGrams : Int
  Status : String
deriving DecidableEq, Repr

/-- The anonymous struct `upd` of the `UpdatePrintJobStatus` case. -/
structure StatusUpdate where
  JobID : String
  Status : String
deriving DecidableEq, Repr

/-- A JSON document tree: what `encoding/json` yields when it decodes into an
`interface{}` (numbers are `float64` there; every `float64` is a rational). -/
inductive JVal where
  | null : JVal
  | bool (b : Bool) : JVal
  | num (q : ℚ) : JVal
  | str (s : String) : JVal
  | arr (xs : List JVal) : JVal
  | obj (kvs : List (String × JVal)) : JVal

/-- The Go struct `LogEntry`; `Typ` is the Go field `Type`, `Data` the `interface{}`. -/
structure LogEntry where
  Typ : String
  Data : JVal

/-- The Go struct `FSM` without its mutex. -/
structure FSM where
  Printers : GoMap Printer
  Filaments : GoMap Filament
  PrintJobs : GoMap PrintJob
  Changelog : List LogEntry

/-- What `Apply` returns as `interface{}`: `nil`, an `error` of the JSON decoder, or a
reason string. -/
inductive ApplyResult where
  | nil : ApplyResult
  | error (e : String) : ApplyResult
  | str (s : String) : ApplyResult
deriving DecidableEq, Repr

/-- The calls into `encoding/json` that `Apply` makes, over raw log data of type `Raw`.
`unmarshalEntry` is `json.Unmarshal(log.Data, &entry)`; the other four are
`b, _ := json.Marshal(entry.Data)` followed by `json.Unmarshal(b, &x)` for the payload
struct `x`, `none` standing for a non-nil `err`.  A decoded Go `int` is in range. -/
structure Json (Raw : Type) where
  unmarshalEntry : Raw → Except String LogEntry
  unmarshalPrinter : JVal → Option Printer
  unmarshalFilament : JVal → Option Filament
  unmarshalPrintJob : JVal → Option PrintJob
  unmarshalStatusUpdate : JVal → Option StatusUpdate
  filament_int : ∀ d fil, unmarshalFilament d = some fil →
    IsGoInt fil.TotalWeightInGrams ∧ IsGoInt fil.RemainingWeightInGrams
  printJob_int : ∀ d job, unmarshalPrintJob d = some job → IsGoInt job.PrintWeightInGrams

/-! ## The state machine (`fsm.go`, lines 48-158) -/

/-- The Go function `NewFSM`. -/
def NewFSM : FSM :=
  { Printers := GoMap.empty, Filaments := GoMap.empty, PrintJobs := GoMap.empty,
    Changelog := [] }

/-- Case `"CreatePrinter"` of `Apply` (lines 68-77), after the changelog append. -/
def applyCreatePrinter {Raw : Type} (J : Json Raw) (f : FSM) (data : JVal) :
    FSM × ApplyResult :=
  match J.unmarshalPrinter data with
  | none => (f, .str "invalid printer data")
  | some p =>
    if p.ID = "" ∨ p.Company = "" ∨ p.Model = "" then
      (f, .str "missing printer fields")
    else
      ({ f with Printers := f.Printers.set p.ID p }, .nil)

/-- Case `"CreateFilament"` of `Apply` (lines 78-88). -/
def applyCreateFilament {Raw : Type} (J : Json Raw) (f : FSM) (data : JVal) :
    FSM × ApplyResult :=
  match J.unmarshalFilament data with
  | none => (f, .str "invalid filament data")
  | some fil =>
    if fil.ID = "" ∨ fil.Typ = "" ∨ fil.Color = "" ∨ fil.TotalWeightInGrams ≤ 0 then
      (f, .str "missing or invalid filament fields")
    else
      let fil := { fil with RemainingWeightInGrams := fil.TotalWeightInGrams }
      ({ f with Filaments := f.Filaments.set fil.ID fil }, .nil)

/-- Case `"CreatePrintJob"` of `Apply` (lines 89-107). -/
def applyCreatePrintJob {Raw : Type} (J : Json Raw) (f : FSM) (data : JVal) :
    FSM × ApplyResult :=
  match J.unmarshalPrintJob data with
  | none => (f, .str "invalid print job data")
  | some job =>
    match f.Printers.get? job.PrinterID with
    | none => (f, .str "printer not found")
    | some _ =>
      match f.Filaments.get? job.FilamentID with
      | none => (f, .str "filament not found")
      | some fil =>
        if job.PrintWeightInGrams ≤ 0 ∨
            job.PrintWeightInGrams > fil.RemainingWeightInGrams then
          (f, .str "invalid or insufficient filament weight")
        else
          let job := { job with Status := "Queued" }
          ({ f with PrintJobs := f.PrintJobs.set job.ID job }, .nil)

/-- The inner `switch pj.Status` of the `"UpdatePrintJobStatus"` case (lines 122-137):
`.error` is the early `return` of a reason, `.ok valid` the value of `valid` after the
switch. -/
def checkTransition (cur new : String) : Except String Bool :=
  if cur = "Queued" then
    let valid : Bool := decide (new = "Running" ∨ new = "Cancelled")
    if new = "Done" then .error "cannot mark job as done from queued" else .ok valid
  else if cur = "Running" then
    .ok (decide (new = "Done" ∨ new = "Cancelled"))
  else
    .ok false

/-- Lines 141-151: on `Running` to `Done`, deduct the job's weight from its filament,
clamped at zero; the filament map is untouched when the filament is missing. -/
def deductFilament (fils : GoMap Filament) (pj : PrintJob) : GoMap Filament :=
  match fils.get? pj.FilamentID with
  | none => fils
  | some fil =>
    let r := wrapInt (fil.RemainingWeightInGrams - pj.PrintWeightInGrams)
    let r := if r < 0 then 0 else r
    fils.set pj.FilamentID { fil with RemainingWeightInGrams := r }

/-- Case `"UpdatePrintJobStatus"` of `Apply` (lines 108-153). -/
def applyUpdatePrintJobStatus {Raw : Type} (J : Json Raw) (f : FSM) (data : JVal) :
    FSM × ApplyResult :=
  match J.unmarshalStatusUpdate data with
  | none => (f, .str "invalid status update data")
  | some upd =>
    match f.PrintJobs.get? upd.JobID with
    | none => (f, .str "print job not found")
    | some pj =>
      match checkTransition pj.Status upd.Status with
      | .error reason => (f, .str reason)
      | .ok false => (f, .str "invalid status transition")
      | .ok true =>
        let fils :=
          if pj.Status = "Running" ∧ upd.Status = "Done" then deductFilament f.Filaments pj
          else f.Filaments
        let pj := { pj with Status := upd.Status }
        ({ f with Filaments := fils, PrintJobs := f.PrintJobs.set upd.JobID pj }, .nil)

/-- The Go method `FSM.Apply` (lines 58-158): the state after the call and the value
returned. -/
def Apply {Raw : Type} (J : Json Raw) (f : FSM) (log : Raw) : FSM × ApplyResult :=
  match J.unmarshalEntry log with
  | .error err => (f, .error err)
  | .ok entry =>
    let f := { f with Changelog := f.Changelog ++ [entry] }
    if entry.Typ = "CreatePrinter" then applyCreatePrinter J f entry.Data
    else if entry.Typ = "CreateFilament" then applyCreateFilament J f entry.Data
    else if entry.Typ = "CreatePrintJob" then applyCreatePrintJob J f entry.Data
    else if entry.Typ = "UpdatePrintJobStatus" then applyUpdatePrintJobStatus J f entry.Data
    else (f, .str "unknown log entry type")

/-! ## A concrete codec on JSON document trees -/

/-- Decoding of one string-typed struct field from the members of a JSON object: an
absent member or `null` leaves the zero value `""`; a value that is not a string is a
type error (`none`). -/
def strField (kvs : List (String × JVal)) (k : String) : Option String :=
  match GoMap.lookup kvs k with
  | none => some ""
  | some .null => some ""
  | some (.str s) => some s
  | some _ => none

/-- Decoding of one `int`-typed struct field: an absent member or `null` leaves `0`; a
number must be integral and fit 64 bits; anything else is a type error. -/
def intField (kvs : List (String × JVal)) (k : String) : Option Int :=
  match GoMap.lookup kvs k with
  | none => some 0
  | some .null => some 0
  | some (.num q) => if q.den = 1 ∧ IsGoInt q.num then some q.num else none
  | some _ => none

/-- Decoding of a document into a `Printer` (JSON tags `id`, `company`, `model`). -/
def decodePrinter : JVal → Option Printer
  | .null => some ⟨"", "", ""⟩
  | .obj kvs =>
    match strField kvs "id", strField kvs "company", strField kvs "model" with
    | some i, some c, some m => some ⟨i, c, m⟩
    | _, _, _ => none
  | _ => none

/-- Decoding of a document into a `Filament`. -/
def decodeFilament : JVal → Option Filament
  | .null => some ⟨"", "", "", 0, 0⟩
  | .obj kvs =>
    match strField kvs "id", strField kvs "type", strField kvs "color",
      intField kvs "total_weight_in_grams", intField kvs "remaining_weight_in_grams" with
    | some i, some t, some c, some tw, some rw => some ⟨i, t, c, tw, rw⟩
    | _, _, _, _, _ => none
  | _ => none

/-- Decoding of a document into a `PrintJob`. -/
def decodePrintJob : JVal → Option PrintJob
  | .null => some ⟨"", "", "", "", 0, ""⟩
  | .obj kvs =>
    match strField kvs "id", strField kvs "printer_id", strField kvs "filament_id",
      strField kvs "filepath", intField kvs "print_weight_in_grams",
      strField kvs "status" with
    | some i, some p, some f, some fp, some w, some s => some ⟨i, p, f, fp, w, s⟩
    | _, _, _, _, _, _ => none
  | _ => none

/-- Decoding of a document into the `upd` struct (JSON tags `job_id`, `status`). -/
def decodeStatusUpdate : JVal → Option StatusUpdate
  | .null => some ⟨"", ""⟩
  | .obj kvs =>
    match strField kvs "job_id", strField kvs "status" with
    | some j, some s => some ⟨j, s⟩
    | _, _ => none
  | _ => none

/-- Decoding of a document into a `LogEntry` (JSON tags `type`, `data`). -/
def decodeLogEntry : JVal → Except String LogEntry
  | .null => .ok ⟨"", .null⟩
  | .obj kvs =>
    match strField kvs "type" with
    | some t => .ok ⟨t, (GoMap.lookup kvs "data").getD .null⟩
    | none => .error "json: cannot unmarshal into Go struct field LogEntry.type of type string"
  | _ => .error "json: cannot unmarshal into Go value of type raftnode.LogEntry"

/-- The codec on JSON document trees: raw log data is the document itself. -/
def treeJson : Json JVal where
  unmarshalEntry := decodeLogEntry
  unmarshalPrinter := decodePrinter
  unmarshalFilament := decodeFilament
  unmarshalPrintJob := decodePrintJob
  unmarshalStatusUpdate := decodeStatusUpdate
  filament_int := by
    have hint : ∀ kvs k n, intField kvs k = some n → IsGoInt n := by
      intro kvs k n h
      unfold intField at h
      split at h
      · cases h; decide
      · cases h; decide
      · split at h
        · rename_i hq; cases h; exact hq.2
        · cases h
      · cases h
    intro d fil h
    unfold decodeFilament at h
    split at h
    · cases h; exact ⟨by decide, by decide⟩
    · split at h
      · rename_i h1 h2 h3 h4 h5
        cases h
        exact ⟨hint _ _ _ h4, hint _ _ _ h5⟩
      · cases h
    · cases h
  printJob_int := by
    have hint : ∀ kvs k n, intField kvs k = some n → IsGoInt n := by
      intro kvs k n h
      unfold intField at h
      split at h
      · cases h; decide
      · cases h; decide
      · split at h
        · rename_i hq; cases h; exact hq.2
        · cases h
      · cases h
    intro d job h
    unfold decodePrintJob at h
    split at h
    · cases h; decide
    · split at h
      · rename_i h1 h2 h3 h4 h5 h6
        cases h
        exact hint _ _ _ h5
      · cases h
    · cases h

/-! ## Snapshot and restore (`fsm.go`, lines 160-223) -/

/-- The Go struct `fsmSnapshot`. -/
structure fsmSnapshot where
  Printers : GoMap Printer
  Filaments : GoMap Filament
  PrintJobs : GoMap PrintJob
  Changelog : List LogEntry

/-- The copy loop `c := make(map[string]V); for k, v := range m { c[k] = v }`. -/
def copyMap {V : Type} (m : GoMap V) : GoMap V :=
  m.entries.foldl (fun c kv => c.set kv.1 kv.2) GoMap.empty

/-- The Go method `FSM.Snapshot` (lines 161-184); its `error` result is always `nil`. -/
def Snapshot (f : FSM) : fsmSnapshot :=
  { Printers := copyMap f.Printers
    Filaments := copyMap f.Filaments
    PrintJobs := copyMap f.PrintJobs
    Changelog := [] ++ f.Changelog }

/-- The document `json.Marshal` writes for a `Printer`. -/
def encodePrinter (p : Printer) : JVal :=
  .obj [("id", .str p.ID), ("company", .str p.Company), ("model", .str p.Model)]

/-- The document `json.Marshal` writes for a `Filament`. -/
def encodeFilament (x : Filament) : JVal :=
  .obj [("id", .str x.ID), ("type", .str x.Typ), ("color", .str x.Color),
    ("total_weight_in_grams", .num x.TotalWeightInGrams),
    ("remaining_weight_in_grams", .num x.RemainingWeightInGrams)]

/-- The document `json.Marshal` writes for a `PrintJob`. -/
def encodePrintJob (j : PrintJob) : JVal :=
  .obj [("id", .str j.ID), ("printer_id", .str j.PrinterID),
    ("filament_id", .str j.FilamentID), ("filepath", .str j.Filepath),
    ("print_weight_in_grams", .num j.PrintWeightInGrams), ("status", .str j.Status)]

/-- The document `json.Marshal` writes for a `LogEntry`. -/
def encodeLogEntry (e : LogEntry) : JVal :=
  .obj [("type", .str e.Typ), ("data", e.Data)]

/-- The document for a map: an object whose members are in sorted key order. -/
def encodeMap {V : Type} (enc : V → JVal) (m : GoMap V) : JVal :=
  .obj ((m.entries.insertionSort (fun a b => a.1 ≤ b.1)).map (fun kv => (kv.1, enc kv.2)))

/-- The document for the changelog slice; the slice built by `Snapshot` is `nil`, hence
`null`, exactly when it is empty. -/
def encodeChangelog (l : List LogEntry) : JVal :=
  if l.isEmpty then .null else .arr (l.map encodeLogEntry)

/-- The document `json.Marshal(s)` writes for a snapshot (fields in declaration order,
under their Go names). -/
def marshalSnapshot (s : fsmSnapshot) : JVal :=
  .obj [("Printers", encodeMap encodePrinter s.Printers),
    ("Filaments", encodeMap encodeFilament s.Filaments),
    ("PrintJobs", encodeMap encodePrintJob s.PrintJobs),
    ("Changelog", encodeChangelog s.Changelog)]

/-- The Go method `fsmSnapshot.Persist` (lines 210-221): the document written to the
sink. -/
def Persist (s : fsmSnapshot) : JVal := marshalSnapshot s

/-- Decoding of a document into a `map[string]V`: every member is decoded and assigned
under its key; one member that fails makes the whole decoding fail. -/
def decodeMap {V : Type} (dec : JVal → Option V) : JVal → Option (GoMap V)
  | .null => some GoMap.empty
  | .obj kvs =>
    kvs.foldl (fun acc kv =>
      match acc, dec kv.2 with
      | some m, some v => some (m.set kv.1 v)
      | _, _ => none) (some GoMap.empty)
  | _ => none

/-- Decoding of a document into a `[]LogEntry`. -/
def decodeChangelog : JVal → Option (List LogEntry)
  | .null => some []
  | .arr xs =>
    xs.foldr (fun x acc =>
      match decodeLogEntry x, acc with
      | .ok e, some l => some (e :: l)
      | _, _ => none) (some [])
  | _ => none

/-- Decoding of one struct field through `dec`; an absent member leaves the zero value,
which `dec .null` yields. -/
def fieldWith {A : Type} (dec : JVal → Option A) (kvs : List (String × JVal)) (k : String) :
    Option A :=
  dec ((GoMap.lookup kvs k).getD .null)

/-- Decoding of a document into an `fsmSnapshot`: `decoder.Decode(&snap)`. -/
def unmarshalSnapshot : JVal → Except String fsmSnapshot
  | .null => .ok ⟨GoMap.empty, GoMap.empty, GoMap.empty, []⟩
  | .obj kvs =>
    match fieldWith (decodeMap decodePrinter) kvs "Printers",
      fieldWith (decodeMap decodeFilament) kvs "Filaments",
      fieldWith (decodeMap decodePrintJob) kvs "PrintJobs",
      fieldWith decodeChangelog kvs "Changelog" with
    | some p, some f, some j, some c => .ok ⟨p, f, j, c⟩
    | _, _, _, _ => .error "json: cannot unmarshal into Go struct field of fsmSnapshot"
  | _ => .error "json: cannot unmarshal into Go value of type raftnode.fsmSnapshot"

/-- The Go method `FSM.Restore` (lines 187-201) on a reader holding the document `rc`:
the state after the call and the returned `error` (`none` for `nil`). -/
def Restore (f : FSM) (rc : JVal) : FSM × Option String :=
  match unmarshalSnapshot rc with
  | .error err => (f, some err)
  | .ok snap =>
    ({ Printers := snap.Printers, Filaments := snap.Filaments,
       PrintJobs := snap.PrintJobs, Changelog := snap.Changelog }, none)

/-! ## The HTTP handlers (`routes/printers.go`, `routes/filaments.go`,
`routes/print_jobs.go`) -/

/-- The values of `raft.RaftState`. -/
inductive RaftState where
  | Follower : RaftState
  | Candidate : RaftState
  | Leader : RaftState
  | Shutdown : RaftState
deriving DecidableEq, Repr

/-- What a handler can read from the `raft.ApplyFuture` that `RaftNode.Apply` returns:
`Error()` (`none` for `nil`) and `Response()`, the value the FSM's `Apply` returned. -/
structure ApplyFuture where
  Error : Option String
  Response : ApplyResult

/-- What the handlers use of the global `raftnode.RaftNode`: `State()`, `Leader()` and
`Apply(b, 5*time.Second)`. -/
structure RaftNode (Raw : Type) where
  State : RaftState
  Leader : String
  Apply : Raw → ApplyFuture

/-- What the handlers read from the `*http.Request`: the method, `r.URL.Path`,
`r.URL.Query().Get("status")` and the body. -/
structure Request (Body : Type) where
  Method : String
  Path : String
  QueryStatus : String
  Body : Body

/-- The body a handler writes: nothing, a line of text, or a JSON document. -/
inductive ResponseBody where
  | empty : ResponseBody
  | text (s : String) : ResponseBody
  | json (doc : JVal) : ResponseBody

/-- What a handler writes to the `http.ResponseWriter`: the status code, the
`X-Raft-Leader` header when set, and the body. -/
structure Response where
  Status : Nat
  RaftLeader : Option String
  Body : ResponseBody

/-- The calls into `encoding/json` that the handlers make on their write paths:
`json.NewDecoder(r.Body).Decode(&x)` for each entity and `json.Marshal(entry)`. -/
structure HandlerJson (Raw Body : Type) where
  decodePrinter : Body → Option Printer
  decodeFilament : Body → Option Filament
  decodePrintJob : Body → Option PrintJob
  marshalEntry : LogEntry → Raw

/-- The Go call `http.Error(w, msg, code)`. -/
def httpError (msg : String) (code : Nat) : Response :=
  { Status := code, RaftLeader := none, Body := .text (msg ++ "\n") }

/-- The leader check shared by every write path: `none` when the local node is the
leader, otherwise the response that ends the request (503 without a known leader, 307
with the `X-Raft-Leader` header). -/
def notLeaderResponse {Raw : Type} (node : RaftNode Raw) : Option Response :=
  if node.State ≠ RaftState.Leader then
    if node.Leader = "" then
      some (httpError "No leader elected" 503)
    else
      some { httpError "Not leader" 307 with RaftLeader := some node.Leader }
  else none

/-- The tail shared by every write path: submit the marshalled entry, wait for the
future, answer 500 when `applyF.Error()` is non-nil and `okStatus` otherwise.  The
second component is the data handed to `RaftNode.Apply`. -/
def submitEntry {Raw Body : Type} (H : HandlerJson Raw Body) (node : RaftNode Raw)
    (entry : LogEntry) (okStatus : Nat) : Response × Option Raw :=
  let b := H.marshalEntry entry
  let applyF := node.Apply b
  match applyF.Error with
  | some err => (httpError ("Raft apply failed: " ++ err) 500, some b)
  | none => ({ Status := okStatus, RaftLeader := none, Body := .empty }, some b)

/-- The Go function `PrintersHandler`; `fsm` is the global `raftnode.FSMInstance`
(`none` for `nil`).  The result is the response and the data submitted to the
consensus layer, if any. -/
def PrintersHandler {Raw Body : Type} (H : HandlerJson Raw Body) (node : RaftNode Raw)
    (fsm : Option FSM) (r : Request Body) : Response × Option Raw :=
  if r.Method = "POST" then
    match notLeaderResponse node with
    | some resp => (resp, none)
    | none =>
      match H.decodePrinter r.Body with
      | none => (httpError "Invalid request body" 400, none)
      | some printer => submitEntry H node ⟨"CreatePrinter", encodePrinter printer⟩ 201
  else if r.Method = "GET" then
    match fsm with
    | none => (httpError "FSM unavailable" 500, none)
    | some f =>
      ({ Status := 200, RaftLeader := none,
         Body := .json (.arr (f.Printers.entries.map (fun kv => encodePrinter kv.2))) }, none)
  else (httpError "Method not allowed" 405, none)

/-- The Go function `FilamentsHandler`. -/
def FilamentsHandler {Raw Body : Type} (H : HandlerJson Raw Body) (node : RaftNode Raw)
    (fsm : Option FSM) (r : Request Body) : Response × Option Raw :=
  if r.Method = "POST" then
    match notLeaderResponse node with
    | some resp => (resp, none)
    | none =>
      match H.decodeFilament r.Body with
      | none => (httpError "Invalid request body" 400, none)
      | some filament => submitEntry H node ⟨"CreateFilament", encodeFilament filament⟩ 201
  else if r.Method = "GET" then
    match fsm with
    | none => (httpError "FSM unavailable" 500, none)
    | some f =>
      ({ Status := 200, RaftLeader := none,
         Body := .json (.arr (f.Filaments.entries.map (fun kv => encodeFilament kv.2))) }, none)
  else (httpError "Method not allowed" 405, none)

/-- The Go call `strings.HasPrefix(s, p)`. -/
def hasPrefix (s p : String) : Bool := p.data.isPrefixOf s.data

/-- The Go call `strings.HasSuffix(s, p)`. -/
def hasSuffix (s p : String) : Bool := p.data.isSuffixOf s.data

/-- The Go call `strings.TrimPrefix(s, p)`. -/
def trimPrefix (s p : String) : String :=
  if hasPrefix s p then ⟨s.data.drop p.data.length⟩ else s

/-- The Go call `strings.TrimSuffix(s, p)`. -/
def trimSuffix (s p : String) : String :=
  if hasSuffix s p then ⟨s.data.take (s.data.length - p.data.length)⟩ else s

/-- The Go function `PrintJobsHandler`: the status-update path (lines 17-45) is taken
on the shape of the URL path alone, before the method is looked at. -/
def PrintJobsHandler {Raw Body : Type} (H : HandlerJson Raw Body) (node : RaftNode Raw)
    (fsm : Option FSM) (r : Request Body) : Response × Option Raw :=
  if hasPrefix r.Path "/api/v1/print_jobs/" ∧ hasSuffix r.Path "/status" then
    let jobID := trimSuffix (trimPrefix r.Path "/api/v1/print_jobs/") "/status"
    let status := r.QueryStatus
    if status = "" then (httpError "Missing status query parameter" 400, none)
    else
      match notLeaderResponse node with
      | some resp => (resp, none)
      | none =>
        submitEntry H node
          ⟨"UpdatePrintJobStatus", .obj [("job_id", .str jobID), ("status", .str status)]⟩ 200
  else if r.Method = "POST" then
    match notLeaderResponse node with
    | some resp => (resp, none)
    | none =>
      match H.decodePrintJob r.Body with
      | none => (httpError "Invalid request body" 400, none)
      | some job => submitEntry H node ⟨"CreatePrintJob", encodePrintJob job⟩ 201
  else if r.Method = "GET" then
    match fsm with
    | none => (httpError "FSM unavailable" 500, none)
    | some f =>
      ({ Status := 200, RaftLeader := none,
         Body := .json (.arr (f.PrintJobs.entries.map (fun kv => encodePrintJob kv.2))) }, none)
  else (httpError "Method not allowed" 405, none)

/-- A leader whose consensus layer commits every submitted entry and delivers it to the
state machine in state `f`: the future has no error and carries what `FSM.Apply`
returned. -/
def committingLeader {Raw : Type} (J : Json Raw) (f : FSM) (addr : String) : RaftNode Raw :=
  { State := .Leader, Leader := addr,
    Apply := fun b => { Error := none, Response := (Raft3D.Apply J f b).2 } }

/-- The handler-side codec on JSON document trees: the request body is the document. -/
def treeHandlerJson : HandlerJson JVal JVal where
  decodePrinter := decodePrinter
  decodeFilament := decodeFilament
  decodePrintJob := decodePrintJob
  marshalEntry := encodeLogEntry

/-! ## Concrete commands and runs -/

/-- The document `{"type": typ, "data": {members}}`. -/
def cmd (typ : String) (members : List (String × JVal)) : JVal :=
  .obj [("type", .str typ), ("data", .obj members)]

/-- Apply a sequence of log entries in order, keeping the final state. -/
def applyAll {Raw : Type} (J : Json Raw) (f : FSM) : List Raw → FSM
  | [] => f
  | log :: rest => applyAll J (Apply J f log).1 rest

def cmdPrinter1 : JVal :=
  cmd "CreatePrinter" [("id", .str "p1"), ("company", .str "Prusa"), ("model", .str "MK4")]
def cmdFilament1 : JVal :=
  cmd "CreateFilament" [("id", .str "f1"), ("type", .str "PLA"), ("color", .str "red"),
    ("total_weight_in_grams", .num 1000)]
def cmdJob1 : JVal :=
  cmd "CreatePrintJob" [("id", .str "j1"), ("printer_id", .str "p1"),
    ("filament_id", .str "f1"), ("filepath", .str "a.gcode"),
    ("print_weight_in_grams", .num 300)]
def cmdStatus (job status : String) : JVal :=
  cmd "UpdatePrintJobStatus" [("job_id", .str job), ("status", .str status)]

/-- The store after creating printer p1, filament f1 (1000 g) and job j1 (300 g):
j1 is `Queued`. -/
def queuedStore : FSM := applyAll treeJson NewFSM [cmdPrinter1, cmdFilament1, cmdJob1]

/-- The store `queuedStore` after j1 has been set to `Running`. -/
def runningStore : FSM := (Apply treeJson queuedStore (cmdStatus "j1" "Running")).1

/-- The store `runningStore` after j1 has been set to `Done`. -/
def doneStore : FSM := (Apply treeJson runningStore (cmdStatus "j1" "Done")).1

/-- A leader node named node1 whose state machine is the empty store and whose
consensus layer commits every entry. -/
def node1 : RaftNode JVal := committingLeader treeJson NewFSM "node1"

/-- A `POST /api/v1/printers` request whose body names printer p1 without company or
model. -/
def postPrinterWithoutFields : Request JVal :=
  { Method := "POST", Path := "/api/v1/printers", QueryStatus := "",
    Body := .obj [("id", .str "p1")] }

/-- A request to set job j1 to `Done`: the path has the status shape and the query
carries the status. -/
def putStatusDone : Request JVal :=
  { Method := "PUT", Path := "/api/v1/print_jobs/j1/status", QueryStatus := "Done",
    Body := .null }

/-- The transition table of the specification: `Queued` may become `Running` or
`Cancelled`, `Running` may become `Done` or `Cancelled`, and nothing else is allowed. -/
def TransitionTable (cur new : String) : Prop :=
  (cur = "Queued" ∧ new = "Running") ∨ (cur = "Queued" ∧ new = "Cancelled") ∨
  (cur = "Running" ∧ new = "Done") ∨ (cur = "Running" ∧ new = "Cancelled")

instance (cur new : String) : Decidable (TransitionTable cur new) := by
  unfold TransitionTable; exact inferInstance

/-- The states reachable from `NewFSM()` by a finite sequence of `Apply` calls. -/
inductive Reachable {Raw : Type} (J : Json Raw) : FSM → Prop where
  | init : Reachable J NewFSM
  | step (f : FSM) (log : Raw) : Reachable J f → Reachable J (Apply J f log).1

/-- The log entry is a `CreatePrintJob` command that decodes to `job` and that `Apply`
accepts in state `f`. -/
def AcceptedCreatePrintJob {Raw : Type} (J : Json Raw) (f : FSM) (log : Raw)
    (job : PrintJob) : Prop :=
  ∃ entry, J.unmarshalEntry log = .ok entry ∧ entry.Typ = "CreatePrintJob" ∧
    J.unmarshalPrintJob entry.Data = some job ∧ (Apply J f log).2 = .nil

/-- The log entry is an `UpdatePrintJobStatus` command that decodes to `upd` and that
`Apply` accepts in state `f`. -/
def AcceptedStatusUpdate {Raw : Type} (J : Json Raw) (f : FSM) (log : Raw)
    (upd : StatusUpdate) : Prop :=
  ∃ entry, J.unmarshalEntry log = .ok entry ∧ entry.Typ = "UpdatePrintJobStatus" ∧
    J.unmarshalStatusUpdate entry.Data = some upd ∧ (Apply J f log).2 = .nil

/-- Every value stored in the map satisfies `P`. -/
def GoMap.All {V : Type} (P : V → Prop) (m : GoMap V) : Prop :=
  ∀ kv ∈ m.entries, P kv.2

/-- What holds of a filament in every reachable state: the remaining weight lies
between zero and the total weight, which fits an `int`. -/
def FilamentOk (fil : Filament) : Prop :=
  0 ≤ fil.RemainingWeightInGrams ∧ fil.RemainingWeightInGrams ≤ fil.TotalWeightInGrams ∧
  IsGoInt fil.TotalWeightInGrams

/-- What holds of a print job in every reachable state: its weight is positive and fits
an `int`. -/
def JobOk (pj : PrintJob) : Prop :=
  0 < pj.PrintWeightInGrams ∧ IsGoInt pj.PrintWeightInGrams

/-- The invariant of the reachable states: each map holds every key once, every
filament is `FilamentOk` and every job is `JobOk`. -/
structure WellFormed (f : FSM) : Prop where
  printers_nodup : f.Printers.keys.Nodup
  filaments_nodup : f.Filaments.keys.Nodup
  jobs_nodup : f.PrintJobs.keys.Nodup
  filaments_ok : f.Filaments.All FilamentOk
  jobs_ok : f.PrintJobs.All JobOk

/-- A store that `Apply` does not reach: filament f1 holds the least `int` as its
remaining weight and job j2 (1 g) is `Running` on it. -/
def underflowStore : FSM :=
  { Printers := ⟨[("p1", ⟨"p1", "Prusa", "MK4"⟩)]⟩
    Filaments := ⟨[("f1", ⟨"f1", "PLA", "red", 1000, -9223372036854775808⟩)]⟩
    PrintJobs := ⟨[("j2", ⟨"j2", "p1", "f1", "b.gcode", 1, "Running"⟩)]⟩
    Changelog := [] }

/-- The store of scenario 5: filament f1 has 100 g left and job j2 (150 g) is `Running`
on it. -/
def lowStore : FSM :=
  { Printers := ⟨[("p1", ⟨"p1", "Prusa", "MK4"⟩)]⟩
    Filaments := ⟨[("f1", ⟨"f1", "PLA", "red", 1000, 100⟩)]⟩
    PrintJobs := ⟨[("j2", ⟨"j2", "p1", "f1", "b.gcode", 150, "Running"⟩)]⟩
    Changelog := [] }

/-- A follower that knows no leader; whatever it were handed, its consensus layer
would report "not leader". -/
def follower1 : RaftNode JVal :=
  { State := .Follower, Leader := "",
    Apply := fun _ => { Error := some "node is not the leader", Response := .nil } }

/-- A request on the status path of job j1 that carries no `status` query parameter. -/
def putStatusMissing : Request JVal :=
  { Method := "PUT", Path := "/api/v1/print_jobs/j1/status", QueryStatus := "",
    Body := .null }

/-- A follower that knows the leader at 127.0.0.1:65362. -/
def follower2 : RaftNode JVal :=
  { State := .Follower, Leader := "127.0.0.1:65362",
    Apply := fun _ => { Error := some "node is not the leader", Response := .nil } }

/-- The log entry is a `CreateFilament` command that decodes to `fil` and that `Apply`
accepts in state `f`. -/
def AcceptedCreateFilament {Raw : Type} (J : Json Raw) (f : FSM) (log : Raw)
    (fil : Filament) : Prop :=
  ∃ entry, J.unmarshalEntry log = .ok entry ∧ entry.Typ = "CreateFilament" ∧
    J.unmarshalFilament entry.Data = some fil ∧ (Apply J f log).2 = .nil

/-- The four status values of the specification. -/
def IsJobStatus (s : String) : Prop :=
  s = "Queued" ∨ s = "Running" ∨ s = "Done" ∨ s = "Cancelled"

instance (s : String) : Decidable (IsJobStatus s) := by
  unfold IsJobStatus; exact inferInstance

/-- The Go method `FSM.Restore` (lines 187-201) over reader contents of any type `Raw`,
`decode` standing for `json.NewDecoder(rc).Decode(&snap)`; `Restore` is the instance on
JSON document trees. -/
def RestoreFrom {Raw : Type} (decode : Raw → Except String fsmSnapshot) (f : FSM) (rc : Raw) :
    FSM × Option String :=
  match decode rc with
  | .error err => (f, some err)
  | .ok snap =>
    ({ Printers := snap.Printers, Filaments := snap.Filaments,
       PrintJobs := snap.PrintJobs, Changelog := snap.Changelog }, none)

/-- The values returned by `Apply` along a sequence of log entries applied in order. -/
def applyResults {Raw : Type} (J : Json Raw) (f : FSM) : List Raw → List ApplyResult
  | [] => []
  | log :: rest => (Apply J f log).2 :: applyResults J (Apply J f log).1 rest

/-- The command creating a print job `id` of `w` grams on printer p1 and filament f1. -/
def cmdJobOf (id : String) (w : Int) : JVal :=
  cmd "CreatePrintJob" [("id", .str id), ("printer_id", .str "p1"),
    ("filament_id", .str "f1"), ("filepath", .str "a.gcode"),
    ("print_weight_in_grams", .num w)]

/-- The store after creating printer p1, filament f1 (1000 g) and the two jobs j1
(600 g) and j2 (700 g) on f1. -/
def oversubscribedStore : FSM :=
  applyAll treeJson NewFSM [cmdPrinter1, cmdFilament1, cmdJobOf "j1" 600, cmdJobOf "j2" 700]

/-- Two stores hold the same state: their maps agree at every key and their changelogs
are equal; how the entries of a map are laid out is not part of the state. -/
def SameStore (f g : FSM) : Prop :=
  (∀ k, f.Printers.get? k = g.Printers.get? k) ∧
  (∀ k, f.Filaments.get? k = g.Filaments.get? k) ∧
  (∀ k, f.PrintJobs.get? k = g.PrintJobs.get? k) ∧
  f.Changelog = g.Changelog

/-- A store with the printers p1 and p2, filament f1 and the queued job j1. -/
def replicaA : FSM :=
  { Printers := ⟨[("p1", ⟨"p1", "Prusa", "MK4"⟩), ("p2", ⟨"p2", "Bambu", "X1"⟩)]⟩
    Filaments := ⟨[("f1", ⟨"f1", "PLA", "red", 1000, 1000⟩)]⟩
    PrintJobs := ⟨[("j1", ⟨"j1", "p1", "f1", "a.gcode", 300, "Queued"⟩)]⟩
    Changelog := [] }

/-- The store `replicaA` with the entries of its printer map laid out in the other
order. -/
def replicaB : FSM :=
  { Printers := ⟨[("p2", ⟨"p2", "Bambu", "X1"⟩), ("p1", ⟨"p1", "Prusa", "MK4"⟩)]⟩
    Filaments := ⟨[("f1", ⟨"f1", "PLA", "red", 1000, 1000⟩)]⟩
    PrintJobs := ⟨[("j1", ⟨"j1", "p1", "f1", "a.gcode", 300, "Queued"⟩)]⟩
    Changelog := [] }

/-- Every print job of the store refers to a printer and a filament of the store. -/
def RefsOk (f : FSM) : Prop :=
  ∀ k pj, f.PrintJobs.get? k = some pj →
    (f.Printers.get? pj.PrinterID).isSome ∧ (f.Filaments.get? pj.FilamentID).isSome

/-! ## Lemmas on maps -/

theorem GoMap.lookup_insert_self {V : Type} (m : List (String × V)) (k : String) (v : V) :
    GoMap.lookup (GoMap.insert m k v) k = some v := by
  induction m with
  | nil => simp [GoMap.insert, GoMap.lookup]
  | cons hd tl ih =>
    obtain ⟨k', v'⟩ := hd
    by_cases h : k' = k
    · simp [GoMap.insert, GoMap.lookup, h]
    · simp [GoMap.insert, GoMap.lookup, h, ih]

theorem GoMap.lookup_insert_ne {V : Type} (m : List (String × V)) (k k' : String) (v : V)
    (h : k ≠ k') : GoMap.lookup (GoMap.insert m k v) k' = GoMap.lookup m k' := by
  induction m with
  | nil => simp [GoMap.insert, GoMap.lookup, h]
  | cons hd tl ih =>
    obtain ⟨k₀, v₀⟩ := hd
    by_cases h₀ : k₀ = k
    · subst h₀
      simp [GoMap.insert, GoMap.lookup, h]
    · by_cases h₁ : k₀ = k'
      · subst h₁
        simp [GoMap.insert, GoMap.lookup, h₀]
      · simp [GoMap.insert, GoMap.lookup, h₀, h₁, ih]

theorem GoMap.get?_set_self {V : Type} (m : GoMap V) (k : String) (v : V) :
    (m.set k v).get? k = some v :=
  GoMap.lookup_insert_self m.entries k v

theorem GoMap.get?_set_ne {V : Type} (m : GoMap V) (k k' : String) (v : V) (h : k ≠ k') :
    (m.set k v).get? k' = m.get? k' :=
  GoMap.lookup_insert_ne m.entries k k' v h

theorem GoMap.mem_insert {V : Type} (m : List (String × V)) (k : String) (v : V)
    (x : String × V) (h : x ∈ GoMap.insert m k v) : x = (k, v) ∨ x ∈ m := by
  induction m with
  | nil =>
    simp only [GoMap.insert, List.mem_singleton] at h
    exact Or.inl h
  | cons hd tl ih =>
    obtain ⟨k', v'⟩ := hd
    unfold GoMap.insert at h
    by_cases hk : k' = k
    · rw [if_pos hk] at h
      rcases List.mem_cons.1 h with h | h
      · exact Or.inl h
      · exact Or.inr (List.mem_cons_of_mem _ h)
    · rw [if_neg hk] at h
      rcases List.mem_cons.1 h with h | h
      · exact Or.inr (h ▸ List.mem_cons_self _ _)
      · rcases ih h with h | h
        · exact Or.inl h
        · exact Or.inr (List.mem_cons_of_mem _ h)

theorem GoMap.lookup_mem {V : Type} (m : List (String × V)) (k : String) (v : V)
    (h : GoMap.lookup m k = some v) : (k, v) ∈ m := by
  induction m with
  | nil => simp [GoMap.lookup] at h
  | cons hd tl ih =>
    obtain ⟨k', v'⟩ := hd
    unfold GoMap.lookup at h
    by_cases hk : k' = k
    · rw [if_pos hk] at h
      cases h
      subst hk
      exact List.mem_cons_self _ _
    · rw [if_neg hk] at h
      exact List.mem_cons_of_mem _ (ih h)

theorem GoMap.insert_of_not_mem {V : Type} (m : List (String × V)) (k : String) (v : V)
    (h : k ∉ m.map Prod.fst) : GoMap.insert m k v = m ++ [(k, v)] := by
  induction m with
  | nil => rfl
  | cons hd tl ih =>
    obtain ⟨k', v'⟩ := hd
    simp only [List.map_cons, List.mem_cons, not_or] at h
    unfold GoMap.insert
    rw [if_neg (fun hk => h.1 hk.symm), ih h.2]
    rfl

theorem GoMap.keys_insert_of_mem {V : Type} (m : List (String × V)) (k : String) (v : V)
    (h : k ∈ m.map Prod.fst) : (GoMap.insert m k v).map Prod.fst = m.map Prod.fst := by
  induction m with
  | nil => simp at h
  | cons hd tl ih =>
    obtain ⟨k', v'⟩ := hd
    unfold GoMap.insert
    by_cases hk : k' = k
    · rw [if_pos hk]
      simp [hk]
    · rw [if_neg hk]
      simp only [List.map_cons, List.mem_cons] at h
      rcases h with h | h
      · exact absurd h.symm hk
      · simp [ih h]

theorem GoMap.nodup_set {V : Type} (m : GoMap V) (k : String) (v : V)
    (h : m.keys.Nodup) : (m.set k v).keys.Nodup := by
  unfold GoMap.keys GoMap.set at *
  by_cases hk : k ∈ m.entries.map Prod.fst
  · rw [GoMap.keys_insert_of_mem _ _ _ hk]
    exact h
  · rw [GoMap.insert_of_not_mem _ _ _ hk]
    simp only [List.map_append, List.map_cons, List.map_nil]
    exact List.Nodup.append h (List.nodup_singleton k)
      (by
        intro a ha hb
        rw [List.mem_singleton] at hb
        exact hk (hb ▸ ha))

theorem GoMap.All.set {V : Type} {P : V → Prop} {m : GoMap V} (h : m.All P) (k : String)
    {v : V} (hv : P v) : (m.set k v).All P := by
  intro kv hkv
  rcases GoMap.mem_insert _ _ _ _ hkv with hx | hx
  · rw [hx]
    exact hv
  · exact h kv hx

theorem GoMap.All.of_get? {V : Type} {P : V → Prop} {m : GoMap V} (h : m.All P) {k : String}
    {v : V} (hg : m.get? k = some v) : P v :=
  h (k, v) (GoMap.lookup_mem _ _ _ hg)

/-! ## Lemmas on the 64-bit wrap -/

theorem wrapInt_of_isGoInt (x : Int) (h : IsGoInt x) : wrapInt x = x := by
  unfold wrapInt
  unfold IsGoInt at h
  omega

theorem wrapInt_isGoInt (x : Int) : IsGoInt (wrapInt x) := by
  unfold wrapInt IsGoInt
  omega

/-! ## Each case of `Apply` leaves the state alone when it rejects -/

theorem applyCreatePrinter_reject {Raw : Type} (J : Json Raw) (f : FSM) (d : JVal)
    (h : (applyCreatePrinter J f d).2 ≠ .nil) : (applyCreatePrinter J f d).1 = f := by
  unfold applyCreatePrinter at h ⊢
  cases hp : J.unmarshalPrinter d with
  | none => rfl
  | some p =>
    by_cases hc : p.ID = "" ∨ p.Company = "" ∨ p.Model = ""
    · simp only [if_pos hc]
    · simp [hp, hc] at h

theorem applyCreateFilament_reject {Raw : Type} (J : Json Raw) (f : FSM) (d : JVal)
    (h : (applyCreateFilament J f d).2 ≠ .nil) : (applyCreateFilament J f d).1 = f := by
  unfold applyCreateFilament at h ⊢
  cases hp : J.unmarshalFilament d with
  | none => rfl
  | some fil =>
    by_cases hc : fil.ID = "" ∨ fil.Typ = "" ∨ fil.Color = "" ∨ fil.TotalWeightInGrams ≤ 0
    · simp only [if_pos hc]
    · simp [hp, hc] at h

theorem applyCreatePrintJob_reject {Raw : Type} (J : Json Raw) (f : FSM) (d : JVal)
    (h : (applyCreatePrintJob J f d).2 ≠ .nil) : (applyCreatePrintJob J f d).1 = f := by
  unfold applyCreatePrintJob at h ⊢
  cases hjob : J.unmarshalPrintJob d with
  | none => rfl
  | some job =>
    simp only [hjob] at h ⊢
    cases hp : f.Printers.get? job.PrinterID with
    | none => rfl
    | some p =>
      simp only [hp] at h ⊢
      cases hfil : f.Filaments.get? job.FilamentID with
      | none => rfl
      | some fil =>
        simp only [hfil] at h ⊢
        by_cases hc : job.PrintWeightInGrams ≤ 0 ∨
            job.PrintWeightInGrams > fil.RemainingWeightInGrams
        · simp only [if_pos hc]
        · simp only [if_neg hc] at h
          exact absurd rfl h

theorem applyUpdatePrintJobStatus_reject {Raw : Type} (J : Json Raw) (f : FSM) (d : JVal)
    (h : (applyUpdatePrintJobStatus J f d).2 ≠ .nil) :
    (applyUpdatePrintJobStatus J f d).1 = f := by
  unfold applyUpdatePrintJobStatus at h ⊢
  cases hupd : J.unmarshalStatusUpdate d with
  | none => rfl
  | some upd =>
    simp only [hupd] at h ⊢
    cases hpj : f.PrintJobs.get? upd.JobID with
    | none => rfl
    | some pj =>
      simp only [hpj] at h ⊢
      cases hc : checkTransition pj.Status upd.Status with
      | error reason => rfl
      | ok valid =>
        cases valid with
        | false => rfl
        | true =>
          simp only [hc] at h
          exact absurd rfl h

/-- The state and result of `Apply` once the entry has been decoded: the changelog has
the entry appended and the case for the entry's type has run. -/
theorem Apply_of_entry {Raw : Type} (J : Json Raw) (f : FSM) (log : Raw) (entry : LogEntry)
    (h : J.unmarshalEntry log = .ok entry) :
    Apply J f log =
      (if entry.Typ = "CreatePrinter" then
        applyCreatePrinter J { f with Changelog := f.Changelog ++ [entry] } entry.Data
      else if entry.Typ = "CreateFilament" then
        applyCreateFilament J { f with Changelog := f.Changelog ++ [entry] } entry.Data
      else if entry.Typ = "CreatePrintJob" then
        applyCreatePrintJob J { f with Changelog := f.Changelog ++ [entry] } entry.Data
      else if entry.Typ = "UpdatePrintJobStatus" then
        applyUpdatePrintJobStatus J { f with Changelog := f.Changelog ++ [entry] } entry.Data
      else ({ f with Changelog := f.Changelog ++ [entry] }, .str "unknown log entry type")) := by
  unfold Apply
  rw [h]

theorem Apply_createPrinter {Raw : Type} (J : Json Raw) (f : FSM) (log : Raw)
    (entry : LogEntry) (h : J.unmarshalEntry log = .ok entry) (ht : entry.Typ = "CreatePrinter") :
    Apply J f log =
      applyCreatePrinter J { f with Changelog := f.Changelog ++ [entry] } entry.Data := by
  rw [Apply_of_entry J f log entry h, if_pos ht]

theorem Apply_createFilament {Raw : Type} (J : Json Raw) (f : FSM) (log : Raw)
    (entry : LogEntry) (h : J.unmarshalEntry log = .ok entry)
    (ht : entry.Typ = "CreateFilament") :
    Apply J f log =
      applyCreateFilament J { f with Changelog := f.Changelog ++ [entry] } entry.Data := by
  rw [Apply_of_entry J f log entry h, ht]
  simp

theorem Apply_createPrintJob {Raw : Type} (J : Json Raw) (f : FSM) (log : Raw)
    (entry : LogEntry) (h : J.unmarshalEntry log = .ok entry)
    (ht : entry.Typ = "CreatePrintJob") :
    Apply J f log =
      applyCreatePrintJob J { f with Changelog := f.Changelog ++ [entry] } entry.Data := by
  rw [Apply_of_entry J f log entry h, ht]
  simp

theorem Apply_updateStatus {Raw : Type} (J : Json Raw) (f : FSM) (log : Raw)
    (entry : LogEntry) (h : J.unmarshalEntry log = .ok entry)
    (ht : entry.Typ = "UpdatePrintJobStatus") :
    Apply J f log =
      applyUpdatePrintJobStatus J { f with Changelog := f.Changelog ++ [entry] }
        entry.Data := by
  rw [Apply_of_entry J f log entry h, ht]
  simp

theorem Apply_unknown {Raw : Type} (J : Json Raw) (f : FSM) (log : Raw)
    (entry : LogEntry) (h : J.unmarshalEntry log = .ok entry)
    (h1 : entry.Typ ≠ "CreatePrinter") (h2 : entry.Typ ≠ "CreateFilament")
    (h3 : entry.Typ ≠ "CreatePrintJob") (h4 : entry.Typ ≠ "UpdatePrintJobStatus") :
    Apply J f log =
      ({ f with Changelog := f.Changelog ++ [entry] }, .str "unknown log entry type") := by
  rw [Apply_of_entry J f log entry h, if_neg h1, if_neg h2, if_neg h3, if_neg h4]

/-- The entry's type is one of the four known ones or none of them. -/
theorem entry_typ_cases (t : String) :
    t = "CreatePrinter" ∨ t = "CreateFilament" ∨ t = "CreatePrintJob" ∨
    t = "UpdatePrintJobStatus" ∨
    (t ≠ "CreatePrinter" ∧ t ≠ "CreateFilament" ∧ t ≠ "CreatePrintJob" ∧
      t ≠ "UpdatePrintJobStatus") := by
  by_cases h1 : t = "CreatePrinter"
  · exact Or.inl h1
  by_cases h2 : t = "CreateFilament"
  · exact Or.inr (Or.inl h2)
  by_cases h3 : t = "CreatePrintJob"
  · exact Or.inr (Or.inr (Or.inl h3))
  by_cases h4 : t = "UpdatePrintJobStatus"
  · exact Or.inr (Or.inr (Or.inr (Or.inl h4)))
  exact Or.inr (Or.inr (Or.inr (Or.inr ⟨h1, h2, h3, h4⟩)))

/-! ## The switch on the job's status against the transition table -/

theorem checkTransition_ok_true (cur new : String) :
    checkTransition cur new = .ok true ↔ TransitionTable cur new := by
  unfold checkTransition TransitionTable
  by_cases hq : cur = "Queued"
  · subst hq
    by_cases hd : new = "Done"
    · subst hd
      simp
    · by_cases hr : new = "Running"
      · subst hr
        simp
      · by_cases hc : new = "Cancelled"
        · subst hc
          simp
        · simp [hd, hr, hc]
  · by_cases hr : cur = "Running"
    · subst hr
      by_cases hd : new = "Done"
      · subst hd
        simp
      · by_cases hc : new = "Cancelled"
        · subst hc
          simp
        · simp [hd, hc]
    · simp [hq, hr]

theorem checkTransition_queued_done :
    checkTransition "Queued" "Done" = .error "cannot mark job as done from queued" := by
  rfl

/-! ## What one `Apply` does to the three maps -/

theorem applyCreatePrinter_cases {Raw : Type} (J : Json Raw) (f : FSM) (d : JVal) :
    (applyCreatePrinter J f d).1 = f ∨
    ∃ p, J.unmarshalPrinter d = some p ∧
      applyCreatePrinter J f d = ({ f with Printers := f.Printers.set p.ID p }, .nil) := by
  unfold applyCreatePrinter
  cases hp : J.unmarshalPrinter d with
  | none => exact Or.inl rfl
  | some p =>
    dsimp only
    by_cases hc : p.ID = "" ∨ p.Company = "" ∨ p.Model = ""
    · rw [if_pos hc]; exact Or.inl rfl
    · rw [if_neg hc]; exact Or.inr ⟨p, rfl, rfl⟩

theorem applyCreateFilament_cases {Raw : Type} (J : Json Raw) (f : FSM) (d : JVal) :
    (applyCreateFilament J f d).1 = f ∨
    ∃ fil, J.unmarshalFilament d = some fil ∧ 0 < fil.TotalWeightInGrams ∧
      applyCreateFilament J f d =
        ({ f with Filaments := (f.Filaments.set fil.ID
            { fil with RemainingWeightInGrams := fil.TotalWeightInGrams }) }, .nil) := by
  unfold applyCreateFilament
  cases hp : J.unmarshalFilament d with
  | none => exact Or.inl rfl
  | some fil =>
    dsimp only
    by_cases hc : fil.ID = "" ∨ fil.Typ = "" ∨ fil.Color = "" ∨ fil.TotalWeightInGrams ≤ 0
    · rw [if_pos hc]; exact Or.inl rfl
    · rw [if_neg hc]
      refine Or.inr ⟨fil, rfl, ?_, rfl⟩
      by_contra hneg
      exact hc (Or.inr (Or.inr (Or.inr (not_lt.mp hneg))))

theorem applyCreatePrintJob_cases {Raw : Type} (J : Json Raw) (f : FSM) (d : JVal) :
    (applyCreatePrintJob J f d).1 = f ∨
    ∃ job p fil, J.unmarshalPrintJob d = some job ∧
      f.Printers.get? job.PrinterID = some p ∧
      f.Filaments.get? job.FilamentID = some fil ∧
      0 < job.PrintWeightInGrams ∧ job.PrintWeightInGrams ≤ fil.RemainingWeightInGrams ∧
      applyCreatePrintJob J f d =
        ({ f with PrintJobs := f.PrintJobs.set job.ID { job with Status := "Queued" } },
          .nil) := by
  unfold applyCreatePrintJob
  cases hjob : J.unmarshalPrintJob d with
  | none => exact Or.inl rfl
  | some job =>
    dsimp only
    cases hp : f.Printers.get? job.PrinterID with
    | none => exact Or.inl rfl
    | some p =>
      dsimp only
      cases hfil : f.Filaments.get? job.FilamentID with
      | none => exact Or.inl rfl
      | some fil =>
        dsimp only
        by_cases hc : job.PrintWeightInGrams ≤ 0 ∨
            job.PrintWeightInGrams > fil.RemainingWeightInGrams
        · rw [if_pos hc]; exact Or.inl rfl
        · rw [if_neg hc]
          refine Or.inr ⟨job, p, fil, rfl, hp, hfil, ?_, ?_, rfl⟩ <;> omega

theorem applyUpdatePrintJobStatus_cases {Raw : Type} (J : Json Raw) (f : FSM) (d : JVal) :
    (applyUpdatePrintJobStatus J f d).1 = f ∨
    ∃ upd pj, J.unmarshalStatusUpdate d = some upd ∧
      f.PrintJobs.get? upd.JobID = some pj ∧
      TransitionTable pj.Status upd.Status ∧
      applyUpdatePrintJobStatus J f d =
        ({ f with
            Filaments :=
              if pj.Status = "Running" ∧ upd.Status = "Done" then
                deductFilament f.Filaments pj
              else f.Filaments
            PrintJobs := f.PrintJobs.set upd.JobID { pj with Status := upd.Status } },
          .nil) := by
  unfold applyUpdatePrintJobStatus
  cases hupd : J.unmarshalStatusUpdate d with
  | none => exact Or.inl rfl
  | some upd =>
    dsimp only
    cases hpj : f.PrintJobs.get? upd.JobID with
    | none => exact Or.inl rfl
    | some pj =>
      dsimp only
      cases hc : checkTransition pj.Status upd.Status with
      | error reason => exact Or.inl rfl
      | ok valid =>
        cases valid with
        | false => exact Or.inl rfl
        | true =>
          exact Or.inr ⟨upd, pj, rfl, hpj, (checkTransition_ok_true _ _).1 hc, rfl⟩

/-- The effect of one `Apply` on the three maps: nothing, or one of the four accepted
commands. -/
theorem Apply_entities {Raw : Type} (J : Json Raw) (f : FSM) (log : Raw) :
    ((Apply J f log).1.Printers = f.Printers ∧
      (Apply J f log).1.Filaments = f.Filaments ∧
      (Apply J f log).1.PrintJobs = f.PrintJobs) ∨
    (∃ p : Printer,
      (Apply J f log).1.Printers = f.Printers.set p.ID p ∧
      (Apply J f log).1.Filaments = f.Filaments ∧
      (Apply J f log).1.PrintJobs = f.PrintJobs) ∨
    (∃ fil : Filament, 0 < fil.TotalWeightInGrams ∧ IsGoInt fil.TotalWeightInGrams ∧
      (Apply J f log).1.Printers = f.Printers ∧
      (Apply J f log).1.Filaments = f.Filaments.set fil.ID
        { fil with RemainingWeightInGrams := fil.TotalWeightInGrams } ∧
      (Apply J f log).1.PrintJobs = f.PrintJobs) ∨
    (∃ (job : PrintJob) (p : Printer) (fil : Filament),
      AcceptedCreatePrintJob J f log job ∧
      f.Printers.get? job.PrinterID = some p ∧
      f.Filaments.get? job.FilamentID = some fil ∧
      0 < job.PrintWeightInGrams ∧ job.PrintWeightInGrams ≤ fil.RemainingWeightInGrams ∧
      IsGoInt job.PrintWeightInGrams ∧
      (Apply J f log).1.Printers = f.Printers ∧
      (Apply J f log).1.Filaments = f.Filaments ∧
      (Apply J f log).1.PrintJobs =
        f.PrintJobs.set job.ID { job with Status := "Queued" }) ∨
    (∃ (upd : StatusUpdate) (pj : PrintJob),
      AcceptedStatusUpdate J f log upd ∧
      f.PrintJobs.get? upd.JobID = some pj ∧
      TransitionTable pj.Status upd.Status ∧
      (Apply J f log).1.Printers = f.Printers ∧
      (Apply J f log).1.Filaments =
        (if pj.Status = "Running" ∧ upd.Status = "Done" then deductFilament f.Filaments pj
         else f.Filaments) ∧
      (Apply J f log).1.PrintJobs =
        f.PrintJobs.set upd.JobID { pj with Status := upd.Status }) := by
  cases hdec : J.unmarshalEntry log with
  | error err =>
    left
    simp [Apply, hdec]
  | ok entry =>
    rcases entry_typ_cases entry.Typ with h | h | h | h | ⟨h1, h2, h3, h4⟩
    · have hA := Apply_createPrinter J f log entry hdec h
      rcases applyCreatePrinter_cases J { f with Changelog := f.Changelog ++ [entry] }
        entry.Data with hc | ⟨p, _, hc⟩
      · left
        rw [hA, hc]
        exact ⟨rfl, rfl, rfl⟩
      · right; left
        rw [hA, hc]
        exact ⟨p, rfl, rfl, rfl⟩
    · have hA := Apply_createFilament J f log entry hdec h
      rcases applyCreateFilament_cases J { f with Changelog := f.Changelog ++ [entry] }
        entry.Data with hc | ⟨fil, hfil, hpos, hc⟩
      · left
        rw [hA, hc]
        exact ⟨rfl, rfl, rfl⟩
      · right; right; left
        rw [hA, hc]
        exact ⟨fil, hpos, (J.filament_int _ _ hfil).1, rfl, rfl, rfl⟩
    · have hA := Apply_createPrintJob J f log entry hdec h
      rcases applyCreatePrintJob_cases J { f with Changelog := f.Changelog ++ [entry] }
        entry.Data with hc | ⟨job, p, fil, hjob, hp, hfil, hpos, hle, hc⟩
      · left
        rw [hA, hc]
        exact ⟨rfl, rfl, rfl⟩
      · right; right; right; left
        refine ⟨job, p, fil, ⟨entry, hdec, h, hjob, ?_⟩, hp, hfil, hpos, hle,
          J.printJob_int _ _ hjob, ?_, ?_, ?_⟩ <;> rw [hA, hc]
    · have hA := Apply_updateStatus J f log entry hdec h
      rcases applyUpdatePrintJobStatus_cases J { f with Changelog := f.Changelog ++ [entry] }
        entry.Data with hc | ⟨upd, pj, hupd, hpj, htab, hc⟩
      · left
        rw [hA, hc]
        exact ⟨rfl, rfl, rfl⟩
      · right; right; right; right
        refine ⟨upd, pj, ⟨entry, hdec, h, hupd, ?_⟩, hpj, htab, ?_, ?_, ?_⟩ <;> rw [hA, hc]
    · left
      rw [Apply_unknown J f log entry hdec h1 h2 h3 h4]
      exact ⟨rfl, rfl, rfl⟩

/-! ## The invariant of the reachable states -/

theorem deductFilament_nodup (fils : GoMap Filament) (pj : PrintJob)
    (h : fils.keys.Nodup) : (deductFilament fils pj).keys.Nodup := by
  unfold deductFilament
  cases hf : fils.get? pj.FilamentID with
  | none => exact h
  | some fil => exact GoMap.nodup_set _ _ _ h

theorem deductFilament_ok (fils : GoMap Filament) (pj : PrintJob)
    (h : fils.All FilamentOk) (hj : JobOk pj) : (deductFilament fils pj).All FilamentOk := by
  unfold deductFilament
  cases hf : fils.get? pj.FilamentID with
  | none => exact h
  | some fil =>
    dsimp only
    apply GoMap.All.set h
    have hfil := h.of_get? hf
    unfold FilamentOk JobOk IsGoInt at *
    have hw : wrapInt (fil.RemainingWeightInGrams - pj.PrintWeightInGrams) =
        fil.RemainingWeightInGrams - pj.PrintWeightInGrams :=
      wrapInt_of_isGoInt _ ⟨by omega, by omega⟩
    rw [hw]
    dsimp only
    by_cases hneg : fil.RemainingWeightInGrams - pj.PrintWeightInGrams < 0
    · rw [if_pos hneg]; omega
    · rw [if_neg hneg]; omega

theorem wellFormed_NewFSM : WellFormed NewFSM :=
  { printers_nodup := List.nodup_nil
    filaments_nodup := List.nodup_nil
    jobs_nodup := List.nodup_nil
    filaments_ok := fun _ h => by cases h
    jobs_ok := fun _ h => by cases h }

theorem wellFormed_Apply {Raw : Type} (J : Json Raw) (f : FSM) (log : Raw)
    (h : WellFormed f) : WellFormed (Apply J f log).1 := by
  rcases Apply_entities J f log with ⟨hp, hf, hj⟩ | ⟨p, hp, hf, hj⟩ |
    ⟨fil, hpos, hint, hp, hf, hj⟩ |
    ⟨job, p, fil, _, _, _, hpos, _, hint, hp, hf, hj⟩ |
    ⟨upd, pj, _, hpj, _, hp, hf, hj⟩
  · exact ⟨hp ▸ h.printers_nodup, hf ▸ h.filaments_nodup, hj ▸ h.jobs_nodup,
      hf ▸ h.filaments_ok, hj ▸ h.jobs_ok⟩
  · exact ⟨hp ▸ GoMap.nodup_set _ _ _ h.printers_nodup, hf ▸ h.filaments_nodup,
      hj ▸ h.jobs_nodup, hf ▸ h.filaments_ok, hj ▸ h.jobs_ok⟩
  · refine ⟨hp ▸ h.printers_nodup, hf ▸ GoMap.nodup_set _ _ _ h.filaments_nodup,
      hj ▸ h.jobs_nodup, hf ▸ GoMap.All.set h.filaments_ok _ ?_, hj ▸ h.jobs_ok⟩
    exact ⟨le_of_lt hpos, le_refl _, hint⟩
  · exact ⟨hp ▸ h.printers_nodup, hf ▸ h.filaments_nodup,
      hj ▸ GoMap.nodup_set _ _ _ h.jobs_nodup, hf ▸ h.filaments_ok,
      hj ▸ GoMap.All.set h.jobs_ok _ ⟨hpos, hint⟩⟩
  · have hjob : JobOk pj := h.jobs_ok.of_get? hpj
    refine ⟨hp ▸ h.printers_nodup, ?_, hj ▸ GoMap.nodup_set _ _ _ h.jobs_nodup, ?_,
      hj ▸ GoMap.All.set h.jobs_ok _ hjob⟩
    · rw [hf]
      split
      · exact deductFilament_nodup _ _ h.filaments_nodup
      · exact h.filaments_nodup
    · rw [hf]
      split
      · exact deductFilament_ok _ _ h.filaments_ok hjob
      · exact h.filaments_ok

theorem reachable_wellFormed {Raw : Type} (J : Json Raw) (f : FSM) (h : Reachable J f) :
    WellFormed f := by
  induction h with
  | init => exact wellFormed_NewFSM
  | step f log _ ih => exact wellFormed_Apply J f log ih

/-! ## Encoding and decoding of a snapshot -/

theorem GoMap.lookup_eq_some_iff {V : Type} (m : List (String × V)) (k : String) (v : V)
    (h : (m.map Prod.fst).Nodup) : GoMap.lookup m k = some v ↔ (k, v) ∈ m := by
  refine ⟨GoMap.lookup_mem m k v, ?_⟩
  induction m with
  | nil => intro hm; cases hm
  | cons hd tl ih =>
    obtain ⟨k', v'⟩ := hd
    intro hm
    simp only [List.map_cons, List.nodup_cons] at h
    unfold GoMap.lookup
    rcases List.mem_cons.1 hm with heq | hin
    · cases heq
      rw [if_pos rfl]
    · have hne : k' ≠ k := by
        intro hk
        apply h.1
        rw [hk]
        exact List.mem_map_of_mem Prod.fst hin
      rw [if_neg hne]
      exact ih h.2 hin

theorem GoMap.lookup_perm {V : Type} (l₁ l₂ : List (String × V)) (hp : l₁.Perm l₂)
    (h : (l₂.map Prod.fst).Nodup) (k : String) : GoMap.lookup l₁ k = GoMap.lookup l₂ k := by
  have h₁ : (l₁.map Prod.fst).Nodup := ((hp.map Prod.fst).nodup_iff).2 h
  apply Option.ext
  intro v
  rw [Option.mem_def, Option.mem_def, GoMap.lookup_eq_some_iff l₁ k v h₁,
    GoMap.lookup_eq_some_iff l₂ k v h]
  exact hp.mem_iff

theorem foldl_set_of_nodup {V : Type} (l acc : List (String × V))
    (h : ((acc ++ l).map Prod.fst).Nodup) :
    l.foldl (fun c kv => GoMap.set c kv.1 kv.2) (⟨acc⟩ : GoMap V) = ⟨acc ++ l⟩ := by
  induction l generalizing acc with
  | nil => simp
  | cons hd tl ih =>
    have hnot : hd.1 ∉ acc.map Prod.fst := by
      intro hin
      rw [List.map_append, List.map_cons] at h
      exact (List.nodup_append.1 h).2.2 hin (List.mem_cons_self _ _)
    have hstep : GoMap.set (⟨acc⟩ : GoMap V) hd.1 hd.2 = ⟨acc ++ [hd]⟩ := by
      unfold GoMap.set
      rw [GoMap.insert_of_not_mem _ _ _ hnot]
    rw [List.foldl_cons, hstep, ih (acc ++ [hd]) (by simpa using h)]
    simp

theorem copyMap_of_nodup {V : Type} (m : GoMap V) (h : m.keys.Nodup) : copyMap m = m := by
  unfold copyMap GoMap.empty
  rw [foldl_set_of_nodup m.entries [] (by simpa [GoMap.keys] using h)]
  simp

theorem foldl_decode_of_nodup {V : Type} (enc : V → JVal) (dec : JVal → Option V)
    (l acc : List (String × V)) (hdec : ∀ kv ∈ l, dec (enc kv.2) = some kv.2)
    (h : ((acc ++ l).map Prod.fst).Nodup) :
    (l.map (fun kv => (kv.1, enc kv.2))).foldl
        (fun (a : Option (GoMap V)) (kv : String × JVal) =>
          match a, dec kv.2 with
          | some m, some v => some (m.set kv.1 v)
          | _, _ => none) (some ⟨acc⟩)
      = some ⟨acc ++ l⟩ := by
  induction l generalizing acc with
  | nil => simp
  | cons hd tl ih =>
    have hnot : hd.1 ∉ acc.map Prod.fst := by
      intro hin
      rw [List.map_append, List.map_cons] at h
      exact (List.nodup_append.1 h).2.2 hin (List.mem_cons_self _ _)
    have hstep : GoMap.set (⟨acc⟩ : GoMap V) hd.1 hd.2 = ⟨acc ++ [hd]⟩ := by
      unfold GoMap.set
      rw [GoMap.insert_of_not_mem _ _ _ hnot]
    rw [List.map_cons, List.foldl_cons]
    dsimp only
    rw [hdec hd (List.mem_cons_self _ _)]
    dsimp only
    rw [hstep, ih (acc ++ [hd]) (fun kv hkv => hdec kv (List.mem_cons_of_mem _ hkv))
      (by simpa using h)]
    simp

/-- Decoding the document of a map whose keys are distinct and whose values decode back
yields the map with its entries in sorted key order. -/
theorem decodeMap_encodeMap {V : Type} (enc : V → JVal) (dec : JVal → Option V)
    (m : GoMap V) (hdec : ∀ kv ∈ m.entries, dec (enc kv.2) = some kv.2)
    (h : m.keys.Nodup) :
    decodeMap dec (encodeMap enc m) =
      some ⟨m.entries.insertionSort (fun a b => a.1 ≤ b.1)⟩ := by
  have hperm := List.perm_insertionSort (fun a b : String × V => a.1 ≤ b.1) m.entries
  unfold decodeMap encodeMap GoMap.empty
  dsimp only
  rw [foldl_decode_of_nodup enc dec _ []
    (fun kv hkv => hdec kv (hperm.mem_iff.1 hkv))
    (by
      rw [List.nil_append]
      exact ((hperm.map Prod.fst).nodup_iff).2 h)]
  simp

theorem get?_sorted {V : Type} (m : GoMap V) (h : m.keys.Nodup) (k : String) :
    GoMap.get? (⟨m.entries.insertionSort (fun a b => a.1 ≤ b.1)⟩ : GoMap V) k = m.get? k :=
  GoMap.lookup_perm _ _ (List.perm_insertionSort _ _) h k

theorem decodePrinter_encodePrinter (p : Printer) :
    decodePrinter (encodePrinter p) = some p := by
  simp [decodePrinter, encodePrinter, strField, GoMap.lookup]

theorem intField_num (kvs : List (String × JVal)) (k : String) (n : Int)
    (hk : GoMap.lookup kvs k = some (.num n)) (hn : IsGoInt n) :
    intField kvs k = some n := by
  unfold intField
  rw [hk]
  simp [hn]

theorem decodeFilament_encodeFilament (x : Filament) (ht : IsGoInt x.TotalWeightInGrams)
    (hr : IsGoInt x.RemainingWeightInGrams) :
    decodeFilament (encodeFilament x) = some x := by
  unfold decodeFilament encodeFilament
  dsimp only
  rw [intField_num _ "total_weight_in_grams" x.TotalWeightInGrams
      (by simp [GoMap.lookup]) ht,
    intField_num _ "remaining_weight_in_grams" x.RemainingWeightInGrams
      (by simp [GoMap.lookup]) hr]
  simp [strField, GoMap.lookup]

theorem decodePrintJob_encodePrintJob (j : PrintJob) (hw : IsGoInt j.PrintWeightInGrams) :
    decodePrintJob (encodePrintJob j) = some j := by
  unfold decodePrintJob encodePrintJob
  dsimp only
  rw [intField_num _ "print_weight_in_grams" j.PrintWeightInGrams
      (by simp [GoMap.lookup]) hw]
  simp [strField, GoMap.lookup]

theorem decodeLogEntry_encodeLogEntry (e : LogEntry) :
    decodeLogEntry (encodeLogEntry e) = .ok e := by
  simp [decodeLogEntry, encodeLogEntry, strField, GoMap.lookup]

theorem decodeChangelog_encodeChangelog (l : List LogEntry) :
    decodeChangelog (encodeChangelog l) = some l := by
  unfold encodeChangelog
  cases l with
  | nil => rfl
  | cons hd tl =>
    have key : ∀ xs : List LogEntry,
        (xs.map encodeLogEntry).foldr (fun x acc =>
          match decodeLogEntry x, acc with
          | .ok e, some l => some (e :: l)
          | _, _ => none) (some []) = some xs := by
      intro xs
      induction xs with
      | nil => rfl
      | cons y ys ih =>
        rw [List.map_cons, List.foldr_cons, ih, decodeLogEntry_encodeLogEntry]
    simp only [List.isEmpty_cons, Bool.false_eq_true, if_false, decodeChangelog]
    exact key (hd :: tl)

theorem unmarshalSnapshot_marshalSnapshot (s : fsmSnapshot)
    (hp : s.Printers.keys.Nodup) (hf : s.Filaments.keys.Nodup) (hj : s.PrintJobs.keys.Nodup)
    (hfok : s.Filaments.All FilamentOk) (hjok : s.PrintJobs.All JobOk) :
    unmarshalSnapshot (marshalSnapshot s) =
      .ok ⟨⟨s.Printers.entries.insertionSort (fun a b => a.1 ≤ b.1)⟩,
        ⟨s.Filaments.entries.insertionSort (fun a b => a.1 ≤ b.1)⟩,
        ⟨s.PrintJobs.entries.insertionSort (fun a b => a.1 ≤ b.1)⟩,
        s.Changelog⟩ := by
  have h1 : fieldWith (decodeMap decodePrinter)
      [("Printers", encodeMap encodePrinter s.Printers),
        ("Filaments", encodeMap encodeFilament s.Filaments),
        ("PrintJobs", encodeMap encodePrintJob s.PrintJobs),
        ("Changelog", encodeChangelog s.Changelog)] "Printers" =
      some ⟨s.Printers.entries.insertionSort (fun a b => a.1 ≤ b.1)⟩ := by
    simp only [fieldWith, GoMap.lookup, if_true, Option.getD_some]
    exact decodeMap_encodeMap _ _ _ (fun kv _ => decodePrinter_encodePrinter kv.2) hp
  have h2 : fieldWith (decodeMap decodeFilament)
      [("Printers", encodeMap encodePrinter s.Printers),
        ("Filaments", encodeMap encodeFilament s.Filaments),
        ("PrintJobs", encodeMap encodePrintJob s.PrintJobs),
        ("Changelog", encodeChangelog s.Changelog)] "Filaments" =
      some ⟨s.Filaments.entries.insertionSort (fun a b => a.1 ≤ b.1)⟩ := by
    have hl : GoMap.lookup
        [("Printers", encodeMap encodePrinter s.Printers),
          ("Filaments", encodeMap encodeFilament s.Filaments),
          ("PrintJobs", encodeMap encodePrintJob s.PrintJobs),
          ("Changelog", encodeChangelog s.Changelog)] "Filaments" =
        some (encodeMap encodeFilament s.Filaments) := by
      simp [GoMap.lookup]
    rw [fieldWith, hl, Option.getD_some]
    refine decodeMap_encodeMap _ _ _ (fun kv hkv => ?_) hf
    have hok := hfok kv hkv
    unfold FilamentOk IsGoInt at hok
    exact decodeFilament_encodeFilament kv.2 ⟨by omega, by omega⟩ ⟨by omega, by omega⟩
  have h3 : fieldWith (decodeMap decodePrintJob)
      [("Printers", encodeMap encodePrinter s.Printers),
        ("Filaments", encodeMap encodeFilament s.Filaments),
        ("PrintJobs", encodeMap encodePrintJob s.PrintJobs),
        ("Changelog", encodeChangelog s.Changelog)] "PrintJobs" =
      some ⟨s.PrintJobs.entries.insertionSort (fun a b => a.1 ≤ b.1)⟩ := by
    have hl : GoMap.lookup
        [("Printers", encodeMap encodePrinter s.Printers),
          ("Filaments", encodeMap encodeFilament s.Filaments),
          ("PrintJobs", encodeMap encodePrintJob s.PrintJobs),
          ("Changelog", encodeChangelog s.Changelog)] "PrintJobs" =
        some (encodeMap encodePrintJob s.PrintJobs) := by
      simp [GoMap.lookup]
    rw [fieldWith, hl, Option.getD_some]
    exact decodeMap_encodeMap _ _ _
      (fun kv hkv => decodePrintJob_encodePrintJob kv.2 (hjok kv hkv).2) hj
  have h4 : fieldWith decodeChangelog
      [("Printers", encodeMap encodePrinter s.Printers),
        ("Filaments", encodeMap encodeFilament s.Filaments),
        ("PrintJobs", encodeMap encodePrintJob s.PrintJobs),
        ("Changelog", encodeChangelog s.Changelog)] "Changelog" = some s.Changelog := by
    have hl : GoMap.lookup
        [("Printers", encodeMap encodePrinter s.Printers),
          ("Filaments", encodeMap encodeFilament s.Filaments),
          ("PrintJobs", encodeMap encodePrintJob s.PrintJobs),
          ("Changelog", encodeChangelog s.Changelog)] "Changelog" =
        some (encodeChangelog s.Changelog) := by
      simp [GoMap.lookup]
    rw [fieldWith, hl, Option.getD_some]
    exact decodeChangelog_encodeChangelog _
  unfold marshalSnapshot unmarshalSnapshot
  dsimp only
  rw [h1, h2, h3, h4]

theorem Snapshot_of_wellFormed (f : FSM) (h : WellFormed f) :
    Snapshot f = ⟨f.Printers, f.Filaments, f.PrintJobs, f.Changelog⟩ := by
  unfold Snapshot
  rw [copyMap_of_nodup _ h.printers_nodup, copyMap_of_nodup _ h.filaments_nodup,
    copyMap_of_nodup _ h.jobs_nodup, List.nil_append]

/-! ## C1: atomicity on rejection -/

/-- C1. Whenever `Apply` returns a non-nil result (the decoder's error or a reason
string), the `Printers`, `Filaments` and `PrintJobs` maps after the call are those of
the state before it. -/
theorem apply_reject_keeps_entities {Raw : Type} (J : Json Raw) (f : FSM) (log : Raw)
    (h : (Apply J f log).2 ≠ .nil) :
    (Apply J f log).1.Printers = f.Printers ∧
    (Apply J f log).1.Filaments = f.Filaments ∧
    (Apply J f log).1.PrintJobs = f.PrintJobs := by
  cases hdec : J.unmarshalEntry log with
  | error err => simp [Apply, hdec]
  | ok entry =>
    rw [Apply_of_entry J f log entry hdec] at h ⊢
    split at h
    · rw [if_pos ‹_›, applyCreatePrinter_reject J _ _ h]; exact ⟨rfl, rfl, rfl⟩
    · rw [if_neg ‹_›]
      split at h
      · rw [if_pos ‹_›, applyCreateFilament_reject J _ _ h]; exact ⟨rfl, rfl, rfl⟩
      · rw [if_neg ‹_›]
        split at h
        · rw [if_pos ‹_›, applyCreatePrintJob_reject J _ _ h]; exact ⟨rfl, rfl, rfl⟩
        · rw [if_neg ‹_›]
          split at h
          · rw [if_pos ‹_›, applyUpdatePrintJobStatus_reject J _ _ h]; exact ⟨rfl, rfl, rfl⟩
          · rw [if_neg ‹_›]; exact ⟨rfl, rfl, rfl⟩

/-- Witness for C1: a print job submitted to the empty store is rejected and the three
maps stay empty. -/
theorem apply_reject_keeps_entities_witness :
    (Apply treeJson NewFSM cmdJob1).2 ≠ .nil ∧
    (Apply treeJson NewFSM cmdJob1).1.Printers = NewFSM.Printers ∧
    (Apply treeJson NewFSM cmdJob1).1.Filaments = NewFSM.Filaments ∧
    (Apply treeJson NewFSM cmdJob1).1.PrintJobs = NewFSM.PrintJobs :=
  ⟨by decide, apply_reject_keeps_entities treeJson NewFSM cmdJob1 (by decide)⟩

/-! ## C2: the status update follows the transition table -/

/-- C2. For a decoded `UpdatePrintJobStatus(jobId, newStatus)` command: an unknown job
id is rejected with "print job not found"; for a job that exists with status `cur`, the
command is accepted exactly when `(cur, newStatus)` is an edge of the transition table,
an accepted command stores the same job with `Status` set to `newStatus` and leaves the
jobs under other ids alone, and `Queued` to `Done` is rejected with "cannot mark job as
done from queued" with the job map unchanged. -/
theorem update_status_follows_table {Raw : Type} (J : Json Raw) (f : FSM) (log : Raw)
    (entry : LogEntry) (upd : StatusUpdate)
    (hentry : J.unmarshalEntry log = .ok entry)
    (htyp : entry.Typ = "UpdatePrintJobStatus")
    (hupd : J.unmarshalStatusUpdate entry.Data = some upd) :
    (f.PrintJobs.get? upd.JobID = none →
      (Apply J f log).2 = .str "print job not found") ∧
    (∀ pj, f.PrintJobs.get? upd.JobID = some pj →
      ((Apply J f log).2 = .nil ↔ TransitionTable pj.Status upd.Status) ∧
      ((Apply J f log).2 = .nil →
        (Apply J f log).1.PrintJobs.get? upd.JobID = some { pj with Status := upd.Status } ∧
        ∀ k, k ≠ upd.JobID → (Apply J f log).1.PrintJobs.get? k = f.PrintJobs.get? k) ∧
      (pj.Status = "Queued" → upd.Status = "Done" →
        (Apply J f log).2 = .str "cannot mark job as done from queued" ∧
        (Apply J f log).1.PrintJobs = f.PrintJobs)) := by
  rw [Apply_updateStatus J f log entry hentry htyp]
  unfold applyUpdatePrintJobStatus
  simp only [hupd]
  refine ⟨fun hnone => by simp only [hnone], fun pj hpj => ?_⟩
  simp only [hpj]
  cases hc : checkTransition pj.Status upd.Status with
  | error reason =>
    have hnot : ¬ TransitionTable pj.Status upd.Status := by
      rw [← checkTransition_ok_true, hc]; simp
    refine ⟨by simp [hnot], by simp, fun hq hd => ?_⟩
    rw [hq, hd, checkTransition_queued_done] at hc
    cases hc
    exact ⟨rfl, rfl⟩
  | ok valid =>
    cases valid with
    | false =>
      have hnot : ¬ TransitionTable pj.Status upd.Status := by
        rw [← checkTransition_ok_true, hc]; simp
      refine ⟨by simp [hnot], by simp, fun hq hd => ?_⟩
      rw [hq, hd, checkTransition_queued_done] at hc
      cases hc
    | true =>
      have hyes : TransitionTable pj.Status upd.Status := (checkTransition_ok_true _ _).1 hc
      refine ⟨by simp [hyes], fun _ => ⟨GoMap.get?_set_self _ _ _, fun k hk => ?_⟩,
        fun hq hd => ?_⟩
      · exact GoMap.get?_set_ne _ _ _ _ (Ne.symm hk)
      · rw [hq, hd, checkTransition_queued_done] at hc
        cases hc

/-- Witness for C2: in the store with the queued job j1, the update of j1 to
`Running`. -/
theorem update_status_follows_table_witness :
    (treeJson.unmarshalEntry (cmdStatus "j1" "Running") =
        .ok ⟨"UpdatePrintJobStatus", .obj [("job_id", .str "j1"), ("status", .str "Running")]⟩ ∧
      treeJson.unmarshalStatusUpdate
          (.obj [("job_id", .str "j1"), ("status", .str "Running")]) =
        some ⟨"j1", "Running"⟩) ∧
    (queuedStore.PrintJobs.get? "j1" = none →
      (Apply treeJson queuedStore
        (cmdStatus "j1" "Running")).2 = .str "print job not found") ∧
    (∀ pj, queuedStore.PrintJobs.get? "j1"
        = some pj →
      ((Apply treeJson queuedStore
          (cmdStatus "j1" "Running")).2 = .nil ↔ TransitionTable pj.Status "Running") ∧
      ((Apply treeJson queuedStore
          (cmdStatus "j1" "Running")).2 = .nil →
        (Apply treeJson queuedStore
          (cmdStatus "j1" "Running")).1.PrintJobs.get? "j1"
          = some { pj with Status := "Running" } ∧
        ∀ k, k ≠ "j1" →
          (Apply treeJson queuedStore
            (cmdStatus "j1" "Running")).1.PrintJobs.get? k
          = queuedStore.PrintJobs.get? k) ∧
      (pj.Status = "Queued" → "Running" = "Done" →
        (Apply treeJson queuedStore
          (cmdStatus "j1" "Running")).2 = .str "cannot mark job as done from queued" ∧
        (Apply treeJson queuedStore
          (cmdStatus "j1" "Running")).1.PrintJobs
          = queuedStore.PrintJobs)) :=
  ⟨⟨rfl, rfl⟩,
    update_status_follows_table treeJson
      queuedStore
      (cmdStatus "j1" "Running")
      ⟨"UpdatePrintJobStatus", .obj [("job_id", .str "j1"), ("status", .str "Running")]⟩
      ⟨"j1", "Running"⟩ rfl rfl rfl⟩

/-! ## C3: the deduction on completion -/

/-- Outside the data model the subtraction can wrap: `underflowStore` is not
well-formed (filament f1 has the least `int` as its remaining weight, a negative value
that no `Apply` produces); marking job j2 (1 g) `Done` there leaves f1 with the greatest
`int`.  This is why the deduction is stated for well-formed states. -/
theorem done_deduction_wraps :
    underflowStore.PrintJobs.get? "j2" = some ⟨"j2", "p1", "f1", "b.gcode", 1, "Running"⟩ ∧
    underflowStore.Filaments.get? "f1" =
      some ⟨"f1", "PLA", "red", 1000, -9223372036854775808⟩ ∧
    (Apply treeJson underflowStore (cmdStatus "j2" "Done")).2 = .nil ∧
    (Apply treeJson underflowStore (cmdStatus "j2" "Done")).1.Filaments.get? "f1" =
      some ⟨"f1", "PLA", "red", 1000, 9223372036854775807⟩ ∧
    max (0 : Int) (-9223372036854775808 - 1) = 0 := by
  decide

/-- The deduction on completion in any state, well-formed or not, as long as the
difference `r - printWeight` fits a 64-bit `int`. -/
theorem done_deducts_in_range {Raw : Type} (J : Json Raw) (f : FSM) (log : Raw)
    (entry : LogEntry) (upd : StatusUpdate) (pj : PrintJob)
    (hentry : J.unmarshalEntry log = .ok entry)
    (htyp : entry.Typ = "UpdatePrintJobStatus")
    (hupd : J.unmarshalStatusUpdate entry.Data = some upd)
    (hpj : f.PrintJobs.get? upd.JobID = some pj) :
    (pj.Status = "Running" → upd.Status = "Done" →
      (Apply J f log).2 = .nil ∧
      ∀ fil, f.Filaments.get? pj.FilamentID = some fil →
        IsGoInt (fil.RemainingWeightInGrams - pj.PrintWeightInGrams) →
        (Apply J f log).1.Filaments.get? pj.FilamentID =
          some { fil with RemainingWeightInGrams :=
            (max 0 (fil.RemainingWeightInGrams - pj.PrintWeightInGrams)) } ∧
        ∀ k, k ≠ pj.FilamentID →
          (Apply J f log).1.Filaments.get? k = f.Filaments.get? k) ∧
    ((Apply J f log).2 = .nil → ¬ (pj.Status = "Running" ∧ upd.Status = "Done") →
      (Apply J f log).1.Filaments = f.Filaments) := by
  rw [Apply_updateStatus J f log entry hentry htyp]
  unfold applyUpdatePrintJobStatus
  simp only [hupd, hpj]
  constructor
  · intro hr hd
    have hc : checkTransition pj.Status upd.Status = .ok true := by
      rw [hr, hd]; rfl
    rw [hc]
    dsimp only
    refine ⟨rfl, fun fil hfil hrange => ?_⟩
    have hcond : pj.Status = "Running" ∧ upd.Status = "Done" := ⟨hr, hd⟩
    simp only [if_pos hcond, deductFilament, hfil, wrapInt_of_isGoInt _ hrange]
    refine ⟨?_, fun k hk => GoMap.get?_set_ne _ _ _ _ (Ne.symm hk)⟩
    rw [GoMap.get?_set_self]
    congr 2
    by_cases hneg : fil.RemainingWeightInGrams - pj.PrintWeightInGrams < 0
    · rw [if_pos hneg]; omega
    · rw [if_neg hneg]; omega
  · cases hc : checkTransition pj.Status upd.Status with
    | error reason => intro h; cases h
    | ok valid =>
      cases valid with
      | false => intro h; cases h
      | true =>
        intro _ hnot
        simp only [if_neg hnot]

/-- C3. In every well-formed state (every state reachable from `NewFSM()` by `Apply`
calls is one) in which job `pj` has status `Running`, a decoded
`UpdatePrintJobStatus` command setting it to `Done` is accepted, and when the job's
filament exists with remaining weight `r` it ends with remaining weight
`max 0 (r - printWeight)`, its other fields unchanged, and every other filament is
unchanged; for every other accepted status transition the `Filaments` map is
unchanged. -/
theorem completion_deducts_with_clamp {Raw : Type} (J : Json Raw) (f : FSM) (log : Raw)
    (entry : LogEntry) (upd : StatusUpdate) (pj : PrintJob)
    (hstate : WellFormed f)
    (hentry : J.unmarshalEntry log = .ok entry)
    (htyp : entry.Typ = "UpdatePrintJobStatus")
    (hupd : J.unmarshalStatusUpdate entry.Data = some upd)
    (hpj : f.PrintJobs.get? upd.JobID = some pj) :
    (pj.Status = "Running" → upd.Status = "Done" →
      (Apply J f log).2 = .nil ∧
      ∀ fil, f.Filaments.get? pj.FilamentID = some fil →
        (Apply J f log).1.Filaments.get? pj.FilamentID =
          some { fil with RemainingWeightInGrams :=
            (max 0 (fil.RemainingWeightInGrams - pj.PrintWeightInGrams)) } ∧
        ∀ k, k ≠ pj.FilamentID →
          (Apply J f log).1.Filaments.get? k = f.Filaments.get? k) ∧
    ((Apply J f log).2 = .nil → ¬ (pj.Status = "Running" ∧ upd.Status = "Done") →
      (Apply J f log).1.Filaments = f.Filaments) := by
  have h := done_deducts_in_range J f log entry upd pj hentry htyp hupd hpj
  refine ⟨fun hr hd => ⟨(h.1 hr hd).1, fun fil hfil => ?_⟩, h.2⟩
  have hjob : JobOk pj := hstate.jobs_ok.of_get? hpj
  have hok : FilamentOk fil := hstate.filaments_ok.of_get? hfil
  refine (h.1 hr hd).2 fil hfil ?_
  unfold FilamentOk JobOk IsGoInt at *
  exact ⟨by omega, by omega⟩

/-- Witness for C3 (scenario 4 of the specification): in the reachable, hence
well-formed, `runningStore` job j1 (300 g), `Running` on the full filament f1 (1000 g),
is marked `Done`; f1 ends with 700 g. -/
theorem completion_deducts_with_clamp_witness :
    (Reachable treeJson runningStore ∧ WellFormed runningStore ∧
      treeJson.unmarshalEntry (cmdStatus "j1" "Done") =
        .ok ⟨"UpdatePrintJobStatus", .obj [("job_id", .str "j1"), ("status", .str "Done")]⟩ ∧
      treeJson.unmarshalStatusUpdate (.obj [("job_id", .str "j1"), ("status", .str "Done")])
        = some ⟨"j1", "Done"⟩ ∧
      runningStore.PrintJobs.get? "j1" = some ⟨"j1", "p1", "f1", "a.gcode", 300, "Running"⟩ ∧
      runningStore.Filaments.get? "f1" = some ⟨"f1", "PLA", "red", 1000, 1000⟩) ∧
    (Apply treeJson runningStore (cmdStatus "j1" "Done")).2 = .nil ∧
    (Apply treeJson runningStore (cmdStatus "j1" "Done")).1.Filaments.get? "f1" =
      some ⟨"f1", "PLA", "red", 1000, max 0 (1000 - 300)⟩ ∧
    max (0 : Int) (1000 - 300) = 700 :=
  have hreach : Reachable treeJson runningStore :=
    Reachable.step _ _ (Reachable.step _ _ (Reachable.step _ _ (Reachable.step _ _
      Reachable.init)))
  have hwf : WellFormed runningStore := reachable_wellFormed treeJson runningStore hreach
  have h := (completion_deducts_with_clamp treeJson runningStore (cmdStatus "j1" "Done")
    ⟨"UpdatePrintJobStatus", .obj [("job_id", .str "j1"), ("status", .str "Done")]⟩
    ⟨"j1", "Done"⟩ ⟨"j1", "p1", "f1", "a.gcode", 300, "Running"⟩ hwf rfl rfl rfl
    (by decide)).1 rfl rfl
  ⟨⟨hreach, hwf, rfl, rfl, by decide, by decide⟩, h.1,
    (h.2 ⟨"f1", "PLA", "red", 1000, 1000⟩ (by decide)).1, by decide⟩

/-- Scenario 5 of the specification: with 100 g left on f1, completing job j2 (150 g)
leaves f1 with 0 g. -/
theorem done_clamps_at_zero_scenario :
    (Apply treeJson lowStore (cmdStatus "j2" "Done")).2 = .nil ∧
    (Apply treeJson lowStore (cmdStatus "j2" "Done")).1.Filaments.get? "f1" =
      some ⟨"f1", "PLA", "red", 1000, 0⟩ := by
  decide

/-! ## C4: the filament weight invariant -/

/-- C4. In every state reachable from `NewFSM()` by `Apply` calls, every filament in
the store has `0 ≤ remainingWeight ≤ totalWeight`. -/
theorem filament_weight_invariant {Raw : Type} (J : Json Raw) (f : FSM)
    (hreach : Reachable J f) (k : String) (fil : Filament)
    (hfil : f.Filaments.get? k = some fil) :
    0 ≤ fil.RemainingWeightInGrams ∧
    fil.RemainingWeightInGrams ≤ fil.TotalWeightInGrams := by
  have h := (reachable_wellFormed J f hreach).filaments_ok.of_get? hfil
  exact ⟨h.1, h.2.1⟩

/-- Witness for C4: the store in which job j1 has been completed is reachable and its
filament f1 holds 700 g of 1000 g. -/
theorem filament_weight_invariant_witness :
    (Reachable treeJson doneStore ∧
      doneStore.Filaments.get? "f1" = some ⟨"f1", "PLA", "red", 1000, 700⟩) ∧
    (0 : Int) ≤ 700 ∧ (700 : Int) ≤ 1000 :=
  have hreach : Reachable treeJson doneStore :=
    Reachable.step _ _ (Reachable.step _ _ (Reachable.step _ _ (Reachable.step _ _
      (Reachable.step _ _ Reachable.init))))
  ⟨⟨hreach, by decide⟩,
    filament_weight_invariant treeJson doneStore hreach "f1" ⟨"f1", "PLA", "red", 1000, 700⟩
      (by decide)⟩

/-! ## C7: the status of an existing job -/

/-- Counterexample to C7 as stated: `doneStore` is reachable and holds job j1 with
status `Done`; the command `CreatePrintJob` with id j1 is accepted there and replaces
the job, whose status becomes `Queued`; `(Done, Queued)` is not an edge of the table. -/
theorem create_resets_done_job :
    Reachable treeJson doneStore ∧
    (doneStore.PrintJobs.get? "j1").map (fun pj => pj.Status) = some "Done" ∧
    (Apply treeJson doneStore cmdJob1).2 = .nil ∧
    ((Apply treeJson doneStore cmdJob1).1.PrintJobs.get? "j1").map (fun pj => pj.Status)
      = some "Queued" ∧
    "Queued" ≠ "Done" ∧ ¬ TransitionTable "Done" "Queued" :=
  ⟨Reachable.step _ _ (Reachable.step _ _ (Reachable.step _ _ (Reachable.step _ _
      (Reachable.step _ _ Reachable.init)))),
    by decide, by decide, by decide, by decide, by decide⟩

/-- C7, amended. For every state, every log entry and every job id present in the
state, the job is still present after `Apply` and its status is unchanged, or has moved
along an edge of the transition table, or the entry is an accepted `CreatePrintJob`
command carrying that same id, which replaces the job with a `Queued` one.  In
particular a `Done` or `Cancelled` job keeps its status under every entry that is not
such a command. -/
theorem job_status_moves_along_table {Raw : Type} (J : Json Raw) (f : FSM) (log : Raw)
    (k : String) (pj : PrintJob) (hpj : f.PrintJobs.get? k = some pj) :
    ∃ pj', (Apply J f log).1.PrintJobs.get? k = some pj' ∧
      (pj'.Status = pj.Status ∨ TransitionTable pj.Status pj'.Status ∨
        (pj'.Status = "Queued" ∧ ∃ job, AcceptedCreatePrintJob J f log job ∧ job.ID = k)) ∧
      ((pj.Status = "Done" ∨ pj.Status = "Cancelled") →
        (¬ ∃ job, AcceptedCreatePrintJob J f log job ∧ job.ID = k) →
        pj'.Status = pj.Status) := by
  have hterm : ∀ s, (pj.Status = "Done" ∨ pj.Status = "Cancelled") →
      ¬ TransitionTable pj.Status s := by
    intro s hs ht
    unfold TransitionTable at ht
    rcases hs with hs | hs <;> rw [hs] at ht <;> simp at ht
  rcases Apply_entities J f log with ⟨_, _, hj⟩ | ⟨p, _, _, hj⟩ |
    ⟨fil, _, _, _, _, hj⟩ |
    ⟨job, p, fil, hacc, _, _, _, _, _, _, _, hj⟩ |
    ⟨upd, pj₀, _, hpj₀, htab, _, _, hj⟩
  · exact ⟨pj, by rw [hj]; exact hpj, Or.inl rfl, fun _ _ => rfl⟩
  · exact ⟨pj, by rw [hj]; exact hpj, Or.inl rfl, fun _ _ => rfl⟩
  · exact ⟨pj, by rw [hj]; exact hpj, Or.inl rfl, fun _ _ => rfl⟩
  · by_cases hk : job.ID = k
    · refine ⟨{ job with Status := "Queued" }, ?_, Or.inr (Or.inr ⟨rfl, job, hacc, hk⟩),
        fun _ hno => absurd ⟨job, hacc, hk⟩ hno⟩
      rw [hj, ← hk]
      exact GoMap.get?_set_self _ _ _
    · refine ⟨pj, ?_, Or.inl rfl, fun _ _ => rfl⟩
      rw [hj, GoMap.get?_set_ne _ _ _ _ hk]
      exact hpj
  · by_cases hk : upd.JobID = k
    · rw [hk, hpj] at hpj₀
      cases hpj₀
      refine ⟨{ pj with Status := upd.Status }, ?_, Or.inr (Or.inl htab),
        fun hs _ => absurd htab (hterm _ hs)⟩
      rw [hj, hk]
      exact GoMap.get?_set_self _ _ _
    · refine ⟨pj, ?_, Or.inl rfl, fun _ _ => rfl⟩
      rw [hj, GoMap.get?_set_ne _ _ _ _ hk]
      exact hpj

/-- Witness for C7: job j1, `Done` in `doneStore`, under a further status update. -/
theorem job_status_moves_along_table_witness :
    doneStore.PrintJobs.get? "j1" = some ⟨"j1", "p1", "f1", "a.gcode", 300, "Done"⟩ ∧
    ∃ pj', (Apply treeJson doneStore (cmdStatus "j1" "Running")).1.PrintJobs.get? "j1"
        = some pj' ∧
      (pj'.Status = "Done" ∨ TransitionTable "Done" pj'.Status ∨
        (pj'.Status = "Queued" ∧
          ∃ job, AcceptedCreatePrintJob treeJson doneStore (cmdStatus "j1" "Running") job ∧
            job.ID = "j1")) ∧
      (("Done" = "Done" ∨ "Done" = "Cancelled") →
        (¬ ∃ job, AcceptedCreatePrintJob treeJson doneStore (cmdStatus "j1" "Running") job ∧
            job.ID = "j1") →
        pj'.Status = "Done") :=
  ⟨by decide,
    job_status_moves_along_table treeJson doneStore (cmdStatus "j1" "Running") "j1"
      ⟨"j1", "p1", "f1", "a.gcode", 300, "Done"⟩ (by decide)⟩

/-! ## C5: creation of a print job -/

/-- C5. A decoded `CreatePrintJob` command is accepted exactly when its printer id is a
key of `Printers`, its filament id is a key of `Filaments`, and its weight is positive
and at most that filament's remaining weight; an accepted command stores, under the
job's id, the decoded job with `Status` replaced by `"Queued"`. -/
theorem create_print_job_contract {Raw : Type} (J : Json Raw) (f : FSM) (log : Raw)
    (entry : LogEntry) (job : PrintJob)
    (hentry : J.unmarshalEntry log = .ok entry)
    (htyp : entry.Typ = "CreatePrintJob")
    (hjob : J.unmarshalPrintJob entry.Data = some job) :
    ((Apply J f log).2 = .nil ↔
      (f.Printers.get? job.PrinterID).isSome ∧
      ∃ fil, f.Filaments.get? job.FilamentID = some fil ∧
        0 < job.PrintWeightInGrams ∧
        job.PrintWeightInGrams ≤ fil.RemainingWeightInGrams) ∧
    ((Apply J f log).2 = .nil →
      (Apply J f log).1.PrintJobs.get? job.ID = some { job with Status := "Queued" }) := by
  rw [Apply_createPrintJob J f log entry hentry htyp]
  unfold applyCreatePrintJob
  simp only [hjob]
  cases hp : f.Printers.get? job.PrinterID with
  | none => simp
  | some p =>
    cases hfil : f.Filaments.get? job.FilamentID with
    | none => simp
    | some fil =>
      by_cases hc : job.PrintWeightInGrams ≤ 0 ∨
          job.PrintWeightInGrams > fil.RemainingWeightInGrams
      · dsimp only
        rw [if_pos hc]
        dsimp only
        refine ⟨⟨(fun h => by cases h), fun h => ?_⟩, fun h => by cases h⟩
        obtain ⟨_, fil₀, hf, h1, h2⟩ := h
        cases hf
        rcases hc with hc | hc <;> omega
      · dsimp only
        rw [if_neg hc]
        dsimp only
        refine ⟨⟨fun _ => ⟨rfl, fil, rfl, ?_, ?_⟩, fun _ => rfl⟩,
          fun _ => GoMap.get?_set_self _ _ _⟩ <;> omega

/-- Witness for C5: job j1 (300 g, payload status "Done") against printer p1 and the
full filament f1. -/
theorem create_print_job_contract_witness :
    (treeJson.unmarshalEntry
        (cmd "CreatePrintJob" [("id", .str "j1"), ("printer_id", .str "p1"),
          ("filament_id", .str "f1"), ("print_weight_in_grams", .num 300),
          ("status", .str "Done")]) =
        .ok ⟨"CreatePrintJob", .obj [("id", .str "j1"), ("printer_id", .str "p1"),
          ("filament_id", .str "f1"), ("print_weight_in_grams", .num 300),
          ("status", .str "Done")]⟩ ∧
      treeJson.unmarshalPrintJob (.obj [("id", .str "j1"), ("printer_id", .str "p1"),
          ("filament_id", .str "f1"), ("print_weight_in_grams", .num 300),
          ("status", .str "Done")]) = some ⟨"j1", "p1", "f1", "", 300, "Done"⟩) ∧
    ((Apply treeJson (applyAll treeJson NewFSM [cmdPrinter1, cmdFilament1])
        (cmd "CreatePrintJob" [("id", .str "j1"), ("printer_id", .str "p1"),
          ("filament_id", .str "f1"), ("print_weight_in_grams", .num 300),
          ("status", .str "Done")])).2 = .nil ↔
      ((applyAll treeJson NewFSM [cmdPrinter1, cmdFilament1]).Printers.get? "p1").isSome ∧
      ∃ fil, (applyAll treeJson NewFSM [cmdPrinter1, cmdFilament1]).Filaments.get? "f1"
          = some fil ∧
        (0 : Int) < 300 ∧ 300 ≤ fil.RemainingWeightInGrams) ∧
    ((Apply treeJson (applyAll treeJson NewFSM [cmdPrinter1, cmdFilament1])
        (cmd "CreatePrintJob" [("id", .str "j1"), ("printer_id", .str "p1"),
          ("filament_id", .str "f1"), ("print_weight_in_grams", .num 300),
          ("status", .str "Done")])).2 = .nil →
      (Apply treeJson (applyAll treeJson NewFSM [cmdPrinter1, cmdFilament1])
        (cmd "CreatePrintJob" [("id", .str "j1"), ("printer_id", .str "p1"),
          ("filament_id", .str "f1"), ("print_weight_in_grams", .num 300),
          ("status", .str "Done")])).1.PrintJobs.get? "j1"
        = some ⟨"j1", "p1", "f1", "", 300, "Queued"⟩) :=
  ⟨⟨rfl, by decide⟩,
    create_print_job_contract treeJson (applyAll treeJson NewFSM [cmdPrinter1, cmdFilament1])
      (cmd "CreatePrintJob" [("id", .str "j1"), ("printer_id", .str "p1"),
          ("filament_id", .str "f1"), ("print_weight_in_grams", .num 300),
          ("status", .str "Done")])
      ⟨"CreatePrintJob", .obj [("id", .str "j1"), ("printer_id", .str "p1"),
          ("filament_id", .str "f1"), ("print_weight_in_grams", .num 300),
          ("status", .str "Done")]⟩
      ⟨"j1", "p1", "f1", "", 300, "Done"⟩ rfl rfl (by decide)⟩

/-! ## C6: creation of a filament -/

/-- C6. A decoded `CreateFilament` command is rejected, with "missing or invalid
filament fields", exactly when its id, type or color is empty or its total weight is not
positive, and is accepted otherwise; an accepted command stores, under the filament's
id, the decoded filament with `RemainingWeightInGrams` replaced by its total weight. -/
theorem create_filament_contract {Raw : Type} (J : Json Raw) (f : FSM) (log : Raw)
    (entry : LogEntry) (fil : Filament)
    (hentry : J.unmarshalEntry log = .ok entry)
    (htyp : entry.Typ = "CreateFilament")
    (hfil : J.unmarshalFilament entry.Data = some fil) :
    ((Apply J f log).2 = .str "missing or invalid filament fields" ↔
      (fil.ID = "" ∨ fil.Typ = "" ∨ fil.Color = "" ∨ fil.TotalWeightInGrams ≤ 0)) ∧
    ((Apply J f log).2 = .nil ↔
      ¬ (fil.ID = "" ∨ fil.Typ = "" ∨ fil.Color = "" ∨ fil.TotalWeightInGrams ≤ 0)) ∧
    ((Apply J f log).2 = .nil →
      (Apply J f log).1.Filaments.get? fil.ID =
        some { fil with RemainingWeightInGrams := fil.TotalWeightInGrams }) := by
  rw [Apply_createFilament J f log entry hentry htyp]
  unfold applyCreateFilament
  simp only [hfil]
  by_cases hc : fil.ID = "" ∨ fil.Typ = "" ∨ fil.Color = "" ∨ fil.TotalWeightInGrams ≤ 0
  · rw [if_pos hc]
    dsimp only
    exact ⟨⟨fun _ => hc, fun _ => rfl⟩, ⟨(fun h => by cases h), fun h => absurd hc h⟩,
      fun h => by cases h⟩
  · rw [if_neg hc]
    dsimp only
    exact ⟨⟨(fun h => by cases h), fun h => absurd h hc⟩, ⟨fun _ => hc, fun _ => rfl⟩,
      fun _ => GoMap.get?_set_self _ _ _⟩

/-- Witness for C6 (scenario 1 of the specification, with a payload that also carries
a remaining weight of 5): filament f1 of 1000 g ends with remaining weight 1000. -/
theorem create_filament_contract_witness :
    (treeJson.unmarshalEntry
        (cmd "CreateFilament" [("id", .str "f1"), ("type", .str "PLA"), ("color", .str "red"),
          ("total_weight_in_grams", .num 1000), ("remaining_weight_in_grams", .num 5)]) =
        .ok ⟨"CreateFilament", .obj [("id", .str "f1"), ("type", .str "PLA"),
          ("color", .str "red"), ("total_weight_in_grams", .num 1000),
          ("remaining_weight_in_grams", .num 5)]⟩ ∧
      treeJson.unmarshalFilament (.obj [("id", .str "f1"), ("type", .str "PLA"),
          ("color", .str "red"), ("total_weight_in_grams", .num 1000),
          ("remaining_weight_in_grams", .num 5)]) = some ⟨"f1", "PLA", "red", 1000, 5⟩) ∧
    ((Apply treeJson NewFSM
        (cmd "CreateFilament" [("id", .str "f1"), ("type", .str "PLA"), ("color", .str "red"),
          ("total_weight_in_grams", .num 1000), ("remaining_weight_in_grams", .num 5)])).2
        = .str "missing or invalid filament fields" ↔
      ("f1" = "" ∨ "PLA" = "" ∨ "red" = "" ∨ (1000 : Int) ≤ 0)) ∧
    ((Apply treeJson NewFSM
        (cmd "CreateFilament" [("id", .str "f1"), ("type", .str "PLA"), ("color", .str "red"),
          ("total_weight_in_grams", .num 1000), ("remaining_weight_in_grams", .num 5)])).2
        = .nil ↔
      ¬ ("f1" = "" ∨ "PLA" = "" ∨ "red" = "" ∨ (1000 : Int) ≤ 0)) ∧
    ((Apply treeJson NewFSM
        (cmd "CreateFilament" [("id", .str "f1"), ("type", .str "PLA"), ("color", .str "red"),
          ("total_weight_in_grams", .num 1000), ("remaining_weight_in_grams", .num 5)])).2
        = .nil →
      (Apply treeJson NewFSM
        (cmd "CreateFilament" [("id", .str "f1"), ("type", .str "PLA"), ("color", .str "red"),
          ("total_weight_in_grams", .num 1000),
          ("remaining_weight_in_grams", .num 5)])).1.Filaments.get? "f1" = some ⟨"f1", "PLA", "red", 1000, 1000⟩) :=
  ⟨⟨rfl, by decide⟩,
    create_filament_contract treeJson NewFSM
      (cmd "CreateFilament" [("id", .str "f1"), ("type", .str "PLA"), ("color", .str "red"),
          ("total_weight_in_grams", .num 1000), ("remaining_weight_in_grams", .num 5)])
      ⟨"CreateFilament", .obj [("id", .str "f1"), ("type", .str "PLA"),
          ("color", .str "red"), ("total_weight_in_grams", .num 1000),
          ("remaining_weight_in_grams", .num 5)]⟩
      ⟨"f1", "PLA", "red", 1000, 5⟩ rfl rfl (by decide)⟩

/-! ## C8: the snapshot round trip -/

/-- C8. For every state `S` reachable from `NewFSM()` by `Apply` calls and every prior
state `g` of the restoring store: `Restore`, given the document that `Persist` writes
for `Snapshot()` of `S`, returns no error and leaves a store whose `Printers`,
`Filaments` and `PrintJobs` hold at every key what those of `S` hold and whose
`Changelog` is that of `S`. -/
theorem snapshot_restore_roundtrip {Raw : Type} (J : Json Raw) (S : FSM)
    (hreach : Reachable J S) (g : FSM) :
    (Restore g (Persist (Snapshot S))).2 = none ∧
    (∀ k, (Restore g (Persist (Snapshot S))).1.Printers.get? k = S.Printers.get? k) ∧
    (∀ k, (Restore g (Persist (Snapshot S))).1.Filaments.get? k = S.Filaments.get? k) ∧
    (∀ k, (Restore g (Persist (Snapshot S))).1.PrintJobs.get? k = S.PrintJobs.get? k) ∧
    (Restore g (Persist (Snapshot S))).1.Changelog = S.Changelog := by
  have hwf := reachable_wellFormed J S hreach
  unfold Restore Persist
  rw [Snapshot_of_wellFormed S hwf,
    unmarshalSnapshot_marshalSnapshot _ hwf.printers_nodup hwf.filaments_nodup
      hwf.jobs_nodup hwf.filaments_ok hwf.jobs_ok]
  exact ⟨rfl, get?_sorted _ hwf.printers_nodup, get?_sorted _ hwf.filaments_nodup,
    get?_sorted _ hwf.jobs_nodup, rfl⟩

/-- Witness for C8: the snapshot of `doneStore` restored into a store that held
`lowStore`. -/
theorem snapshot_restore_roundtrip_witness :
    Reachable treeJson doneStore ∧
    (Restore lowStore (Persist (Snapshot doneStore))).2 = none ∧
    (∀ k, (Restore lowStore (Persist (Snapshot doneStore))).1.Printers.get? k
      = doneStore.Printers.get? k) ∧
    (∀ k, (Restore lowStore (Persist (Snapshot doneStore))).1.Filaments.get? k
      = doneStore.Filaments.get? k) ∧
    (∀ k, (Restore lowStore (Persist (Snapshot doneStore))).1.PrintJobs.get? k
      = doneStore.PrintJobs.get? k) ∧
    (Restore lowStore (Persist (Snapshot doneStore))).1.Changelog = doneStore.Changelog :=
  have hreach : Reachable treeJson doneStore :=
    Reachable.step _ _ (Reachable.step _ _ (Reachable.step _ _ (Reachable.step _ _
      (Reachable.step _ _ Reachable.init))))
  ⟨hreach, snapshot_restore_roundtrip treeJson doneStore hreach lowStore⟩

set_option maxRecDepth 20000 in
/-- The filament f1 read back from the restored snapshot of `doneStore`. -/
theorem snapshot_restore_scenario :
    (Restore lowStore (Persist (Snapshot doneStore))).1.Filaments.get? "f1" =
      some ⟨"f1", "PLA", "red", 1000, 700⟩ := by
  decide

/-! ## C9: the audit log -/

/-- C9. For every state and every log entry that decodes to a command `entry`, the
changelog after `Apply` is the changelog before with `entry` appended as its last
element, whatever the outcome of the call; its length grows by exactly one. -/
theorem apply_appends_to_changelog {Raw : Type} (J : Json Raw) (f : FSM) (log : Raw)
    (entry : LogEntry) (hentry : J.unmarshalEntry log = .ok entry) :
    (Apply J f log).1.Changelog = f.Changelog ++ [entry] ∧
    (Apply J f log).1.Changelog.length = f.Changelog.length + 1 := by
  have key : (Apply J f log).1.Changelog = f.Changelog ++ [entry] := by
    rcases entry_typ_cases entry.Typ with h | h | h | h | ⟨h1, h2, h3, h4⟩
    · rw [Apply_createPrinter J f log entry hentry h]
      unfold applyCreatePrinter
      split
      · rfl
      · split <;> rfl
    · rw [Apply_createFilament J f log entry hentry h]
      unfold applyCreateFilament
      split
      · rfl
      · split <;> rfl
    · rw [Apply_createPrintJob J f log entry hentry h]
      unfold applyCreatePrintJob
      split
      · rfl
      · split
        · rfl
        · split
          · rfl
          · split <;> rfl
    · rw [Apply_updateStatus J f log entry hentry h]
      unfold applyUpdatePrintJobStatus
      split
      · rfl
      · split
        · rfl
        · split <;> rfl
    · rw [Apply_unknown J f log entry hentry h1 h2 h3 h4]
  rw [key]
  exact ⟨rfl, by simp⟩

/-- Witness for C9: a rejected command (a print job for a missing printer) is still
appended to the empty changelog. -/
theorem apply_appends_to_changelog_witness :
    treeJson.unmarshalEntry cmdJob1 =
        .ok ⟨"CreatePrintJob", .obj [("id", .str "j1"), ("printer_id", .str "p1"),
          ("filament_id", .str "f1"), ("filepath", .str "a.gcode"),
          ("print_weight_in_grams", .num 300)]⟩ ∧
    (Apply treeJson NewFSM cmdJob1).2 = .str "printer not found" ∧
    (Apply treeJson NewFSM cmdJob1).1.Changelog = NewFSM.Changelog ++
        [⟨"CreatePrintJob", .obj [("id", .str "j1"), ("printer_id", .str "p1"),
          ("filament_id", .str "f1"), ("filepath", .str "a.gcode"),
          ("print_weight_in_grams", .num 300)]⟩] ∧
    (Apply treeJson NewFSM cmdJob1).1.Changelog.length = NewFSM.Changelog.length + 1 :=
  ⟨rfl, by decide, apply_appends_to_changelog treeJson NewFSM cmdJob1 _ rfl⟩

/-! ## C10: what the submitter of a write is told -/

theorem notLeaderResponse_leader {Raw : Type} (node : RaftNode Raw)
    (h : node.State = .Leader) : notLeaderResponse node = none := by
  unfold notLeaderResponse
  rw [if_neg (by simp [h])]

theorem submitEntry_answer {Raw Body : Type} (H : HandlerJson Raw Body) (node : RaftNode Raw)
    (entry : LogEntry) (okStatus : Nat) :
    (submitEntry H node entry okStatus).2 = some (H.marshalEntry entry) ∧
    ((node.Apply (H.marshalEntry entry)).Error = none →
      (submitEntry H node entry okStatus).1 =
        { Status := okStatus, RaftLeader := none, Body := .empty }) ∧
    (∀ err, (node.Apply (H.marshalEntry entry)).Error = some err →
      (submitEntry H node entry okStatus).1 = httpError ("Raft apply failed: " ++ err) 500) := by
  unfold submitEntry
  dsimp only
  cases he : (node.Apply (H.marshalEntry entry)).Error with
  | none => exact ⟨rfl, fun _ => rfl, fun err h => by cases h⟩
  | some e => exact ⟨rfl, (fun h => by cases h), fun err h => by cases h; rfl⟩

/-- Counterexample to C10 as stated: node1 is the leader, the `CreatePrinter` entry that
`PrintersHandler` submits for a printer without company and model is committed, and the
state machine rejects it with "missing printer fields"; the handler still answers
201 Created with an empty body.  Likewise the update of the unknown job j1 to `Done` is
rejected with "print job not found" and answered 200 OK. -/
theorem handler_answers_success_on_rejection :
    node1.State = RaftState.Leader ∧
    (PrintersHandler treeHandlerJson node1 (some NewFSM) postPrinterWithoutFields).2 =
      some (encodeLogEntry ⟨"CreatePrinter", encodePrinter ⟨"p1", "", ""⟩⟩) ∧
    (node1.Apply (encodeLogEntry ⟨"CreatePrinter", encodePrinter ⟨"p1", "", ""⟩⟩)).Error
      = none ∧
    (node1.Apply (encodeLogEntry ⟨"CreatePrinter", encodePrinter ⟨"p1", "", ""⟩⟩)).Response
      = .str "missing printer fields" ∧
    (PrintersHandler treeHandlerJson node1 (some NewFSM) postPrinterWithoutFields).1.Status
      = 201 ∧
    (PrintersHandler treeHandlerJson node1 (some NewFSM) postPrinterWithoutFields).1.Body
      = .empty ∧
    (node1.Apply (encodeLogEntry ⟨"UpdatePrintJobStatus",
      .obj [("job_id", .str "j1"), ("status", .str "Done")]⟩)).Response
      = .str "print job not found" ∧
    (PrintJobsHandler treeHandlerJson node1 (some NewFSM) putStatusDone).1.Status = 200 ∧
    (PrintJobsHandler treeHandlerJson node1 (some NewFSM) putStatusDone).1.Body = .empty :=
  ⟨rfl, rfl, rfl, by decide, by decide, rfl, by decide, by decide, rfl⟩

/-- C10, amended. On a leader, each write path (POST printer, POST filament, POST print
job, job status update) submits its entry and answers from the future's `Error()`
alone: when it is nil the answer is 201 Created (200 OK for a status update) with an
empty body, whatever the state machine returned for the entry; when it is an error the
answer is 500 with the text "Raft apply failed: " followed by that error. -/
theorem write_paths_answer_from_commit_error {Raw Body : Type} (H : HandlerJson Raw Body)
    (node : RaftNode Raw) (fsm : Option FSM) (r : Request Body)
    (hleader : node.State = RaftState.Leader) :
    (∀ printer, r.Method = "POST" → H.decodePrinter r.Body = some printer →
      (PrintersHandler H node fsm r).2 =
        some (H.marshalEntry ⟨"CreatePrinter", encodePrinter printer⟩) ∧
      ((node.Apply (H.marshalEntry ⟨"CreatePrinter", encodePrinter printer⟩)).Error = none →
        (PrintersHandler H node fsm r).1 =
          { Status := 201, RaftLeader := none, Body := .empty }) ∧
      (∀ err,
        (node.Apply (H.marshalEntry ⟨"CreatePrinter", encodePrinter printer⟩)).Error
          = some err →
        (PrintersHandler H node fsm r).1 = httpError ("Raft apply failed: " ++ err) 500)) ∧
    (∀ filament, r.Method = "POST" → H.decodeFilament r.Body = some filament →
      (FilamentsHandler H node fsm r).2 =
        some (H.marshalEntry ⟨"CreateFilament", encodeFilament filament⟩) ∧
      ((node.Apply (H.marshalEntry ⟨"CreateFilament", encodeFilament filament⟩)).Error
          = none →
        (FilamentsHandler H node fsm r).1 =
          { Status := 201, RaftLeader := none, Body := .empty }) ∧
      (∀ err,
        (node.Apply (H.marshalEntry ⟨"CreateFilament", encodeFilament filament⟩)).Error
          = some err →
        (FilamentsHandler H node fsm r).1 = httpError ("Raft apply failed: " ++ err) 500)) ∧
    (∀ job, ¬ (hasPrefix r.Path "/api/v1/print_jobs/" ∧ hasSuffix r.Path "/status") →
      r.Method = "POST" → H.decodePrintJob r.Body = some job →
      (PrintJobsHandler H node fsm r).2 =
        some (H.marshalEntry ⟨"CreatePrintJob", encodePrintJob job⟩) ∧
      ((node.Apply (H.marshalEntry ⟨"CreatePrintJob", encodePrintJob job⟩)).Error = none →
        (PrintJobsHandler H node fsm r).1 =
          { Status := 201, RaftLeader := none, Body := .empty }) ∧
      (∀ err,
        (node.Apply (H.marshalEntry ⟨"CreatePrintJob", encodePrintJob job⟩)).Error
          = some err →
        (PrintJobsHandler H node fsm r).1 = httpError ("Raft apply failed: " ++ err) 500)) ∧
    ((hasPrefix r.Path "/api/v1/print_jobs/" ∧ hasSuffix r.Path "/status") →
      r.QueryStatus ≠ "" →
      (PrintJobsHandler H node fsm r).2 =
        some (H.marshalEntry ⟨"UpdatePrintJobStatus",
          .obj [("job_id", .str (trimSuffix (trimPrefix r.Path "/api/v1/print_jobs/")
            "/status")), ("status", .str r.QueryStatus)]⟩) ∧
      ((node.Apply (H.marshalEntry ⟨"UpdatePrintJobStatus",
          .obj [("job_id", .str (trimSuffix (trimPrefix r.Path "/api/v1/print_jobs/")
            "/status")), ("status", .str r.QueryStatus)]⟩)).Error = none →
        (PrintJobsHandler H node fsm r).1 =
          { Status := 200, RaftLeader := none, Body := .empty }) ∧
      (∀ err,
        (node.Apply (H.marshalEntry ⟨"UpdatePrintJobStatus",
          .obj [("job_id", .str (trimSuffix (trimPrefix r.Path "/api/v1/print_jobs/")
            "/status")), ("status", .str r.QueryStatus)]⟩)).Error = some err →
        (PrintJobsHandler H node fsm r).1 = httpError ("Raft apply failed: " ++ err) 500)) := by
  have hn := notLeaderResponse_leader node hleader
  refine ⟨fun printer hm hd => ?_, fun filament hm hd => ?_, fun job hpath hm hd => ?_,
    fun hpath hq => ?_⟩
  · unfold PrintersHandler
    rw [if_pos hm, hn, hd]
    exact submitEntry_answer H node _ 201
  · unfold FilamentsHandler
    rw [if_pos hm, hn, hd]
    exact submitEntry_answer H node _ 201
  · unfold PrintJobsHandler
    rw [if_neg hpath, if_pos hm, hn, hd]
    exact submitEntry_answer H node _ 201
  · unfold PrintJobsHandler
    rw [if_pos hpath]
    dsimp only
    rw [if_neg hq, hn]
    exact submitEntry_answer H node _ 200

/-- Witness for C10: node1 answers 201 Created to the printer without company and
model. -/
theorem write_paths_answer_from_commit_error_witness :
    (node1.State = RaftState.Leader ∧ postPrinterWithoutFields.Method = "POST" ∧
      treeHandlerJson.decodePrinter postPrinterWithoutFields.Body = some ⟨"p1", "", ""⟩ ∧
      (node1.Apply (treeHandlerJson.marshalEntry
        ⟨"CreatePrinter", encodePrinter ⟨"p1", "", ""⟩⟩)).Error = none) ∧
    (PrintersHandler treeHandlerJson node1 none postPrinterWithoutFields).1 =
      { Status := 201, RaftLeader := none, Body := .empty } :=
  ⟨⟨rfl, rfl, rfl, rfl⟩,
    ((write_paths_answer_from_commit_error treeHandlerJson node1 none
      postPrinterWithoutFields rfl).1 ⟨"p1", "", ""⟩ rfl rfl).2.1 rfl⟩

/-! ## C11: forwarding of writes to the leader -/

/-- Counterexample to C11 as stated: on the follower `follower1`, which knows no leader,
a request on the job-status path without a `status` query parameter is answered
400 Bad Request, not 503, because the parameter is checked before the role. -/
theorem status_without_parameter_on_follower :
    follower1.State ≠ RaftState.Leader ∧ follower1.Leader = "" ∧
    (hasPrefix putStatusMissing.Path "/api/v1/print_jobs/" ∧
      hasSuffix putStatusMissing.Path "/status") ∧
    (PrintJobsHandler treeHandlerJson follower1 none putStatusMissing).1.Status = 400 ∧
    (PrintJobsHandler treeHandlerJson follower1 none putStatusMissing).1.RaftLeader = none :=
  ⟨by decide, rfl, by decide, by decide, by decide⟩

theorem notLeaderResponse_not_leader {Raw : Type} (node : RaftNode Raw)
    (h : node.State ≠ .Leader) :
    notLeaderResponse node =
      some (if node.Leader = "" then httpError "No leader elected" 503
        else { httpError "Not leader" 307 with RaftLeader := some node.Leader }) := by
  unfold notLeaderResponse
  rw [if_pos h]
  split <;> rfl

theorem notLeaderResponse_none {Raw : Type} (node : RaftNode Raw)
    (h : notLeaderResponse node = none) : node.State = .Leader := by
  by_contra hne
  rw [notLeaderResponse_not_leader node hne] at h
  cases h

theorem submitEntry_some {Raw Body : Type} (H : HandlerJson Raw Body) (node : RaftNode Raw)
    (entry : LogEntry) (okStatus : Nat) :
    (submitEntry H node entry okStatus).2 = some (H.marshalEntry entry) :=
  (submitEntry_answer H node entry okStatus).1

/-- C11, amended. While the local role is not `Leader`, a POST to the printers or
filaments handler, a POST to the print-jobs handler on a path that is not a job-status
path, and a request of any method on a job-status path that carries a non-empty
`status` parameter submit nothing and are answered 503 when `Leader()` is empty and
otherwise 307 with the `X-Raft-Leader` header set to the leader's address.  Whatever
the role, a request on a job-status path without a `status` parameter submits nothing
and is answered 400 "Missing status query parameter".  Whatever the request, a handler
submits an entry only when the local role is `Leader`. -/
theorem writes_forwarded_to_leader {Raw Body : Type} (H : HandlerJson Raw Body)
    (node : RaftNode Raw) (fsm : Option FSM) (r : Request Body) :
    (node.State ≠ RaftState.Leader →
      (r.Method = "POST" →
        PrintersHandler H node fsm r =
          (if node.Leader = "" then httpError "No leader elected" 503
            else { httpError "Not leader" 307 with RaftLeader := some node.Leader }, none)) ∧
      (r.Method = "POST" →
        FilamentsHandler H node fsm r =
          (if node.Leader = "" then httpError "No leader elected" 503
            else { httpError "Not leader" 307 with RaftLeader := some node.Leader }, none)) ∧
      (¬ (hasPrefix r.Path "/api/v1/print_jobs/" ∧ hasSuffix r.Path "/status") →
        r.Method = "POST" →
        PrintJobsHandler H node fsm r =
          (if node.Leader = "" then httpError "No leader elected" 503
            else { httpError "Not leader" 307 with RaftLeader := some node.Leader }, none)) ∧
      ((hasPrefix r.Path "/api/v1/print_jobs/" ∧ hasSuffix r.Path "/status") →
        r.QueryStatus ≠ "" →
        PrintJobsHandler H node fsm r =
          (if node.Leader = "" then httpError "No leader elected" 503
            else { httpError "Not leader" 307 with RaftLeader := some node.Leader },
            none))) ∧
    ((hasPrefix r.Path "/api/v1/print_jobs/" ∧ hasSuffix r.Path "/status") →
      r.QueryStatus = "" →
      PrintJobsHandler H node fsm r = (httpError "Missing status query parameter" 400, none)) ∧
    ((PrintersHandler H node fsm r).2.isSome → node.State = RaftState.Leader) ∧
    ((FilamentsHandler H node fsm r).2.isSome → node.State = RaftState.Leader) ∧
    ((PrintJobsHandler H node fsm r).2.isSome → node.State = RaftState.Leader) := by
  have hmissing : (hasPrefix r.Path "/api/v1/print_jobs/" ∧ hasSuffix r.Path "/status") →
      r.QueryStatus = "" →
      PrintJobsHandler H node fsm r =
        (httpError "Missing status query parameter" 400, none) := by
    intro hpath hq
    unfold PrintJobsHandler
    rw [if_pos hpath]
    dsimp only
    rw [if_pos hq]
  refine ⟨fun hnl => ?_, hmissing, ?_, ?_, ?_⟩
  · have hn := notLeaderResponse_not_leader node hnl
    refine ⟨fun hm => ?_, fun hm => ?_, fun hpath hm => ?_, fun hpath hq => ?_⟩
    · unfold PrintersHandler
      rw [if_pos hm, hn]
    · unfold FilamentsHandler
      rw [if_pos hm, hn]
    · unfold PrintJobsHandler
      rw [if_neg hpath, if_pos hm, hn]
    · unfold PrintJobsHandler
      rw [if_pos hpath]
      dsimp only
      rw [if_neg hq, hn]
  · intro hs
    cases hn : notLeaderResponse node with
    | none => exact notLeaderResponse_none node hn
    | some resp =>
      unfold PrintersHandler at hs
      rw [hn] at hs
      dsimp only at hs
      split at hs
      · cases hs
      · split at hs
        · split at hs <;> cases hs
        · cases hs
  · intro hs
    cases hn : notLeaderResponse node with
    | none => exact notLeaderResponse_none node hn
    | some resp =>
      unfold FilamentsHandler at hs
      rw [hn] at hs
      dsimp only at hs
      split at hs
      · cases hs
      · split at hs
        · split at hs <;> cases hs
        · cases hs
  · intro hs
    cases hn : notLeaderResponse node with
    | none => exact notLeaderResponse_none node hn
    | some resp =>
      unfold PrintJobsHandler at hs
      rw [hn] at hs
      dsimp only at hs
      split at hs
      · split at hs <;> cases hs
      · split at hs
        · cases hs
        · split at hs
          · split at hs <;> cases hs
          · cases hs

/-- Witness for C11: on `follower2` the POST of a printer is answered 307 with the
leader's address in `X-Raft-Leader`, and nothing is submitted. -/
theorem writes_forwarded_to_leader_witness :
    (follower2.State ≠ RaftState.Leader ∧ postPrinterWithoutFields.Method = "POST") ∧
    PrintersHandler treeHandlerJson follower2 none postPrinterWithoutFields =
      (if follower2.Leader = "" then httpError "No leader elected" 503
        else { httpError "Not leader" 307 with RaftLeader := some follower2.Leader }, none) ∧
    (PrintersHandler treeHandlerJson follower2 none postPrinterWithoutFields).1.Status = 307 ∧
    (PrintersHandler treeHandlerJson follower2 none postPrinterWithoutFields).1.RaftLeader
      = some "127.0.0.1:65362" :=
  ⟨⟨by decide, rfl⟩,
    ((writes_forwarded_to_leader treeHandlerJson follower2 none postPrinterWithoutFields).1
      (by decide)).1 rfl,
    by decide, by decide⟩

/-! ## C12: what changes a filament -/

/-- The effect of one `Apply` on the `Filaments` map: nothing, the assignment of an
accepted `CreateFilament`, or the deduction of an accepted `Running` to `Done` update. -/
theorem Apply_filaments {Raw : Type} (J : Json Raw) (f : FSM) (log : Raw) :
    (Apply J f log).1.Filaments = f.Filaments ∨
    (∃ fil, AcceptedCreateFilament J f log fil ∧
      (Apply J f log).1.Filaments = f.Filaments.set fil.ID
        { fil with RemainingWeightInGrams := fil.TotalWeightInGrams }) ∨
    (∃ upd pj, AcceptedStatusUpdate J f log upd ∧
      f.PrintJobs.get? upd.JobID = some pj ∧ pj.Status = "Running" ∧ upd.Status = "Done" ∧
      (Apply J f log).1.Filaments = deductFilament f.Filaments pj) := by
  cases hdec : J.unmarshalEntry log with
  | error err =>
    left
    simp [Apply, hdec]
  | ok entry =>
    rcases entry_typ_cases entry.Typ with h | h | h | h | ⟨h1, h2, h3, h4⟩
    · have hA := Apply_createPrinter J f log entry hdec h
      rcases applyCreatePrinter_cases J { f with Changelog := f.Changelog ++ [entry] }
        entry.Data with hc | ⟨p, _, hc⟩
      · left; rw [hA, hc]
      · left; rw [hA, hc]
    · have hA := Apply_createFilament J f log entry hdec h
      rcases applyCreateFilament_cases J { f with Changelog := f.Changelog ++ [entry] }
        entry.Data with hc | ⟨fil, hfil, hpos, hc⟩
      · left; rw [hA, hc]
      · right; left
        refine ⟨fil, ⟨entry, hdec, h, hfil, ?_⟩, ?_⟩ <;> rw [hA, hc]
    · have hA := Apply_createPrintJob J f log entry hdec h
      rcases applyCreatePrintJob_cases J { f with Changelog := f.Changelog ++ [entry] }
        entry.Data with hc | ⟨job, p, fil, _, _, _, _, _, hc⟩
      · left; rw [hA, hc]
      · left; rw [hA, hc]
    · have hA := Apply_updateStatus J f log entry hdec h
      rcases applyUpdatePrintJobStatus_cases J { f with Changelog := f.Changelog ++ [entry] }
        entry.Data with hc | ⟨upd, pj, hupd, hpj, htab, hc⟩
      · left; rw [hA, hc]
      · by_cases hrd : pj.Status = "Running" ∧ upd.Status = "Done"
        · right; right
          refine ⟨upd, pj, ⟨entry, hdec, h, hupd, ?_⟩, hpj, hrd.1, hrd.2, ?_⟩
          · rw [hA, hc]
          · rw [hA, hc]
            dsimp only
            rw [if_pos hrd]
        · left
          rw [hA, hc]
          dsimp only
          rw [if_neg hrd]
    · left
      rw [Apply_unknown J f log entry hdec h1 h2 h3 h4]

/-- Counterexample to C12 as stated: `doneStore` is reachable and holds filament f1 with
700 g left; the entry `cmdFilament1` is a `CreateFilament` command (not a status update)
with id f1; it is accepted and f1 is replaced, its remaining weight back at 1000 g. -/
theorem create_resets_filament :
    Reachable treeJson doneStore ∧
    doneStore.Filaments.get? "f1" = some ⟨"f1", "PLA", "red", 1000, 700⟩ ∧
    (treeJson.unmarshalEntry cmdFilament1).toOption.map (fun e => e.Typ)
      = some "CreateFilament" ∧
    (Apply treeJson doneStore cmdFilament1).2 = .nil ∧
    (Apply treeJson doneStore cmdFilament1).1.Filaments.get? "f1" =
      some ⟨"f1", "PLA", "red", 1000, 1000⟩ :=
  ⟨Reachable.step _ _ (Reachable.step _ _ (Reachable.step _ _ (Reachable.step _ _
      (Reachable.step _ _ Reachable.init)))),
    by decide, by decide, by decide, by decide⟩

/-- C12, amended. For every state, every filament id present in it and every log entry
that is neither an accepted `Running` to `Done` status update of a job using that
filament nor an accepted `CreateFilament` command carrying that same id, the filament
stored under the id after `Apply` is the one stored before: remaining weight, type,
color and total weight are unchanged. -/
theorem filament_changed_only_by_completion {Raw : Type} (J : Json Raw) (f : FSM)
    (log : Raw) (k : String) (fil : Filament)
    (hfil : f.Filaments.get? k = some fil)
    (hnotDone : ¬ ∃ upd pj, AcceptedStatusUpdate J f log upd ∧
      f.PrintJobs.get? upd.JobID = some pj ∧ pj.Status = "Running" ∧ upd.Status = "Done" ∧
      pj.FilamentID = k)
    (hnotCreate : ¬ ∃ fil', AcceptedCreateFilament J f log fil' ∧ fil'.ID = k) :
    (Apply J f log).1.Filaments.get? k = some fil := by
  rcases Apply_filaments J f log with h | ⟨fil', hacc, h⟩ | ⟨upd, pj, hacc, hpj, hr, hd, h⟩
  · rw [h]; exact hfil
  · have hk : fil'.ID ≠ k := fun hk => hnotCreate ⟨fil', hacc, hk⟩
    rw [h, GoMap.get?_set_ne _ _ _ _ hk]
    exact hfil
  · have hk : pj.FilamentID ≠ k := fun hk => hnotDone ⟨upd, pj, hacc, hpj, hr, hd, hk⟩
    rw [h]
    unfold deductFilament
    cases hf : f.Filaments.get? pj.FilamentID with
    | none => exact hfil
    | some fil₀ =>
      dsimp only
      rw [GoMap.get?_set_ne _ _ _ _ hk]
      exact hfil

/-- Witness for C12: starting job j1 in `queuedStore` leaves filament f1 as it was. -/
theorem filament_changed_only_by_completion_witness :
    queuedStore.Filaments.get? "f1" = some ⟨"f1", "PLA", "red", 1000, 1000⟩ ∧
    (Apply treeJson queuedStore (cmdStatus "j1" "Running")).2 = .nil ∧
    (Apply treeJson queuedStore (cmdStatus "j1" "Running")).1.Filaments.get? "f1" =
      some ⟨"f1", "PLA", "red", 1000, 1000⟩ :=
  ⟨by decide, by decide,
    filament_changed_only_by_completion treeJson queuedStore (cmdStatus "j1" "Running") "f1"
      ⟨"f1", "PLA", "red", 1000, 1000⟩ (by decide)
      (by
        rintro ⟨upd, pj, ⟨entry, he, _, hu, _⟩, _, _, hd, _⟩
        have he' : (Except.ok ⟨"UpdatePrintJobStatus",
            .obj [("job_id", .str "j1"), ("status", .str "Running")]⟩ : Except String LogEntry)
            = Except.ok entry := he
        cases he'
        have hu' : some (⟨"j1", "Running"⟩ : StatusUpdate) = some upd := hu
        cases hu'
        exact absurd hd (by decide))
      (by
        rintro ⟨fil', ⟨entry, he, ht, _, _⟩, _⟩
        have he' : (Except.ok ⟨"UpdatePrintJobStatus",
            .obj [("job_id", .str "j1"), ("status", .str "Running")]⟩ : Except String LogEntry)
            = Except.ok entry := he
        cases he'
        exact absurd ht (by decide))⟩

/-! ## C13: the status values -/

theorem transitionTable_target (cur new : String) (h : TransitionTable cur new) :
    IsJobStatus new := by
  unfold TransitionTable at h
  unfold IsJobStatus
  rcases h with ⟨_, h⟩ | ⟨_, h⟩ | ⟨_, h⟩ | ⟨_, h⟩ <;> simp [h]

theorem statusOk_Apply {Raw : Type} (J : Json Raw) (f : FSM) (log : Raw)
    (h : f.PrintJobs.All (fun pj => IsJobStatus pj.Status)) :
    (Apply J f log).1.PrintJobs.All (fun pj => IsJobStatus pj.Status) := by
  rcases Apply_entities J f log with ⟨_, _, hj⟩ | ⟨p, _, _, hj⟩ |
    ⟨fil, _, _, _, _, hj⟩ |
    ⟨job, p, fil, _, _, _, _, _, _, _, _, hj⟩ |
    ⟨upd, pj, _, _, htab, _, _, hj⟩
  · rw [hj]; exact h
  · rw [hj]; exact h
  · rw [hj]; exact h
  · rw [hj]
    exact GoMap.All.set h _ (Or.inl rfl)
  · rw [hj]
    exact GoMap.All.set h _ (transitionTable_target _ _ htab)

/-- C13. In every state reachable from `NewFSM()` by `Apply` calls, every print job in
the store has a status among `Queued`, `Running`, `Done` and `Cancelled`, whatever the
status strings of the payloads were. -/
theorem job_status_invariant {Raw : Type} (J : Json Raw) (f : FSM)
    (hreach : Reachable J f) (k : String) (pj : PrintJob)
    (hpj : f.PrintJobs.get? k = some pj) : IsJobStatus pj.Status := by
  have hall : ∀ g, Reachable J g → g.PrintJobs.All (fun pj => IsJobStatus pj.Status) := by
    intro g hg
    induction hg with
    | init => exact fun _ h => by cases h
    | step f log _ ih => exact statusOk_Apply J f log ih
  exact (hall f hreach).of_get? hpj

/-- Witness for C13: job j1 in the reachable `doneStore` has status `Done`. -/
theorem job_status_invariant_witness :
    (Reachable treeJson doneStore ∧
      doneStore.PrintJobs.get? "j1" = some ⟨"j1", "p1", "f1", "a.gcode", 300, "Done"⟩) ∧
    IsJobStatus "Done" :=
  have hreach : Reachable treeJson doneStore :=
    Reachable.step _ _ (Reachable.step _ _ (Reachable.step _ _ (Reachable.step _ _
      (Reachable.step _ _ Reachable.init))))
  ⟨⟨hreach, by decide⟩,
    job_status_invariant treeJson doneStore hreach "j1"
      ⟨"j1", "p1", "f1", "a.gcode", 300, "Done"⟩ (by decide)⟩

/-! ## C14: serialization failures -/

theorem Restore_eq_RestoreFrom (f : FSM) (rc : JVal) :
    Restore f rc = RestoreFrom unmarshalSnapshot f rc := rfl

/-- C14. If the log data does not decode as a command envelope, `Apply` returns the
decoder's error and the state is unchanged; if the reader's content does not decode as a
snapshot, `Restore` returns the decoder's error and the state is unchanged (for any
decoder, and in particular for the one on document trees). -/
theorem serialization_failure_keeps_state {Raw : Type} (J : Json Raw) (f : FSM) :
    (∀ log err, J.unmarshalEntry log = .error err → Apply J f log = (f, .error err)) ∧
    (∀ (decode : Raw → Except String fsmSnapshot) rc err, decode rc = .error err →
      RestoreFrom decode f rc = (f, some err)) ∧
    (∀ rc err, unmarshalSnapshot rc = .error err → Restore f rc = (f, some err)) := by
  refine ⟨fun log err h => ?_, fun decode rc err h => ?_, fun rc err h => ?_⟩
  · unfold Apply
    rw [h]
  · unfold RestoreFrom
    rw [h]
  · unfold Restore
    rw [h]

/-- Witness for C14: a JSON string is neither a command envelope nor a snapshot; `Apply`
and `Restore` on `doneStore` return the decoder's error and leave `doneStore`. -/
theorem serialization_failure_keeps_state_witness :
    (treeJson.unmarshalEntry (.str "garbage") =
        .error "json: cannot unmarshal into Go value of type raftnode.LogEntry" ∧
      unmarshalSnapshot (.str "garbage") =
        .error "json: cannot unmarshal into Go value of type raftnode.fsmSnapshot") ∧
    Apply treeJson doneStore (.str "garbage") =
      (doneStore, .error "json: cannot unmarshal into Go value of type raftnode.LogEntry") ∧
    Restore doneStore (.str "garbage") =
      (doneStore, some "json: cannot unmarshal into Go value of type raftnode.fsmSnapshot") :=
  ⟨⟨rfl, rfl⟩,
    (serialization_failure_keeps_state treeJson doneStore).1 (.str "garbage") _ rfl,
    (serialization_failure_keeps_state treeJson doneStore).2.2 (.str "garbage") _ rfl⟩

/-! ## C15: over-subscription of a filament -/

/-- C15. From `NewFSM()`: after printer p1 and filament f1 of total weight 1000, the
jobs j1 (600 g) and j2 (700 g) on f1, with 600 ≤ 1000, 700 ≤ 1000 and 600 + 700 > 1000,
are both accepted with status `Queued` and f1 still has 1000 g left; setting j1 and then
j2 to `Running` and to `Done` is accepted at every step and f1 ends with 0 g left. -/
theorem oversubscription_admitted :
    ((600 : Int) ≤ 1000 ∧ (700 : Int) ≤ 1000 ∧ (600 : Int) + 700 > 1000) ∧
    applyResults treeJson NewFSM
        [cmdPrinter1, cmdFilament1, cmdJobOf "j1" 600, cmdJobOf "j2" 700] =
      [.nil, .nil, .nil, .nil] ∧
    oversubscribedStore.PrintJobs.get? "j1" = some ⟨"j1", "p1", "f1", "a.gcode", 600, "Queued"⟩ ∧
    oversubscribedStore.PrintJobs.get? "j2" = some ⟨"j2", "p1", "f1", "a.gcode", 700, "Queued"⟩ ∧
    oversubscribedStore.Filaments.get? "f1" = some ⟨"f1", "PLA", "red", 1000, 1000⟩ ∧
    applyResults treeJson oversubscribedStore
        [cmdStatus "j1" "Running", cmdStatus "j1" "Done", cmdStatus "j2" "Running",
          cmdStatus "j2" "Done"] =
      [.nil, .nil, .nil, .nil] ∧
    (applyAll treeJson oversubscribedStore
        [cmdStatus "j1" "Running", cmdStatus "j1" "Done"]).Filaments.get? "f1" =
      some ⟨"f1", "PLA", "red", 1000, 400⟩ ∧
    (applyAll treeJson oversubscribedStore
        [cmdStatus "j1" "Running", cmdStatus "j1" "Done", cmdStatus "j2" "Running",
          cmdStatus "j2" "Done"]).Filaments.get? "f1" =
      some ⟨"f1", "PLA", "red", 1000, 0⟩ := by
  refine ⟨by decide, by decide, by decide, by decide, by decide, by decide, by decide,
    by decide⟩

/-! ## C16: determinism -/

theorem GoMap.get?_set {V : Type} (m : GoMap V) (k k' : String) (v : V) :
    (m.set k v).get? k' = if k = k' then some v else m.get? k' := by
  by_cases h : k = k'
  · rw [if_pos h, ← h]
    exact GoMap.get?_set_self m k v
  · rw [if_neg h]
    exact GoMap.get?_set_ne m k k' v h

theorem GoMap.set_congr {V : Type} (m m' : GoMap V) (h : ∀ k, m.get? k = m'.get? k)
    (k : String) (v : V) (k' : String) : (m.set k v).get? k' = (m'.set k v).get? k' := by
  rw [GoMap.get?_set, GoMap.get?_set, h k']

theorem deductFilament_congr (m m' : GoMap Filament) (h : ∀ k, m.get? k = m'.get? k)
    (pj : PrintJob) (k : String) :
    (deductFilament m pj).get? k = (deductFilament m' pj).get? k := by
  unfold deductFilament
  rw [h pj.FilamentID]
  cases m'.get? pj.FilamentID with
  | none => exact h k
  | some fil => exact GoMap.set_congr m m' h _ _ k

theorem SameStore.refl (f : FSM) : SameStore f f :=
  ⟨fun _ => rfl, fun _ => rfl, fun _ => rfl, rfl⟩

theorem applyCreatePrinter_congr {Raw : Type} (J : Json Raw) (f g : FSM) (d : JVal)
    (h : SameStore f g) :
    (applyCreatePrinter J f d).2 = (applyCreatePrinter J g d).2 ∧
    SameStore (applyCreatePrinter J f d).1 (applyCreatePrinter J g d).1 := by
  unfold applyCreatePrinter
  cases J.unmarshalPrinter d with
  | none => exact ⟨rfl, h⟩
  | some p =>
    dsimp only
    split
    · exact ⟨rfl, h⟩
    · exact ⟨rfl, GoMap.set_congr _ _ h.1 _ _, h.2.1, h.2.2.1, h.2.2.2⟩

theorem applyCreateFilament_congr {Raw : Type} (J : Json Raw) (f g : FSM) (d : JVal)
    (h : SameStore f g) :
    (applyCreateFilament J f d).2 = (applyCreateFilament J g d).2 ∧
    SameStore (applyCreateFilament J f d).1 (applyCreateFilament J g d).1 := by
  unfold applyCreateFilament
  cases J.unmarshalFilament d with
  | none => exact ⟨rfl, h⟩
  | some fil =>
    dsimp only
    split
    · exact ⟨rfl, h⟩
    · exact ⟨rfl, h.1, GoMap.set_congr _ _ h.2.1 _ _, h.2.2.1, h.2.2.2⟩

theorem applyCreatePrintJob_congr {Raw : Type} (J : Json Raw) (f g : FSM) (d : JVal)
    (h : SameStore f g) :
    (applyCreatePrintJob J f d).2 = (applyCreatePrintJob J g d).2 ∧
    SameStore (applyCreatePrintJob J f d).1 (applyCreatePrintJob J g d).1 := by
  unfold applyCreatePrintJob
  cases J.unmarshalPrintJob d with
  | none => exact ⟨rfl, h⟩
  | some job =>
    dsimp only
    rw [h.1 job.PrinterID, h.2.1 job.FilamentID]
    cases g.Printers.get? job.PrinterID with
    | none => exact ⟨rfl, h⟩
    | some p =>
      dsimp only
      cases g.Filaments.get? job.FilamentID with
      | none => exact ⟨rfl, h⟩
      | some fil =>
        dsimp only
        split
        · exact ⟨rfl, h⟩
        · exact ⟨rfl, h.1, h.2.1, GoMap.set_congr _ _ h.2.2.1 _ _, h.2.2.2⟩

theorem applyUpdatePrintJobStatus_congr {Raw : Type} (J : Json Raw) (f g : FSM) (d : JVal)
    (h : SameStore f g) :
    (applyUpdatePrintJobStatus J f d).2 = (applyUpdatePrintJobStatus J g d).2 ∧
    SameStore (applyUpdatePrintJobStatus J f d).1 (applyUpdatePrintJobStatus J g d).1 := by
  unfold applyUpdatePrintJobStatus
  cases J.unmarshalStatusUpdate d with
  | none => exact ⟨rfl, h⟩
  | some upd =>
    dsimp only
    rw [h.2.2.1 upd.JobID]
    cases g.PrintJobs.get? upd.JobID with
    | none => exact ⟨rfl, h⟩
    | some pj =>
      dsimp only
      cases checkTransition pj.Status upd.Status with
      | error reason => exact ⟨rfl, h⟩
      | ok valid =>
        cases valid with
        | false => exact ⟨rfl, h⟩
        | true =>
          dsimp only
          refine ⟨rfl, h.1, fun k => ?_, GoMap.set_congr _ _ h.2.2.1 _ _, h.2.2.2⟩
          split
          · exact deductFilament_congr _ _ h.2.1 pj k
          · exact h.2.1 k

theorem Apply_congr {Raw : Type} (J : Json Raw) (f g : FSM) (log : Raw)
    (h : SameStore f g) :
    (Apply J f log).2 = (Apply J g log).2 ∧ SameStore (Apply J f log).1 (Apply J g log).1 := by
  cases hdec : J.unmarshalEntry log with
  | error err =>
    unfold Apply
    rw [hdec]
    exact ⟨rfl, h⟩
  | ok entry =>
    have h' : SameStore { f with Changelog := f.Changelog ++ [entry] }
        { g with Changelog := g.Changelog ++ [entry] } :=
      ⟨h.1, h.2.1, h.2.2.1, by rw [h.2.2.2]⟩
    rw [Apply_of_entry J f log entry hdec, Apply_of_entry J g log entry hdec]
    split
    · exact applyCreatePrinter_congr J _ _ _ h'
    · split
      · exact applyCreateFilament_congr J _ _ _ h'
      · split
        · exact applyCreatePrintJob_congr J _ _ _ h'
        · split
          · exact applyUpdatePrintJobStatus_congr J _ _ _ h'
          · exact ⟨rfl, h'⟩

theorem applyAll_congr {Raw : Type} (J : Json Raw) (logs : List Raw) (f g : FSM)
    (h : SameStore f g) : SameStore (applyAll J f logs) (applyAll J g logs) := by
  induction logs generalizing f g with
  | nil => exact h
  | cons log rest ih => exact ih _ _ (Apply_congr J f g log h).2

/-- C16. `Apply` depends on the state of the store and the log entry only: on two
stores that hold the same state (maps agreeing at every key, equal changelogs) the same
entry yields the same result and stores that again hold the same state, and so does
every sequence of entries; replaying a sequence from `NewFSM()` twice yields equal
stores. -/
theorem apply_deterministic {Raw : Type} (J : Json Raw) (f g : FSM) (h : SameStore f g) :
    (∀ log, (Apply J f log).2 = (Apply J g log).2 ∧
      SameStore (Apply J f log).1 (Apply J g log).1) ∧
    (∀ logs, applyResults J f logs = applyResults J g logs ∧
      SameStore (applyAll J f logs) (applyAll J g logs)) ∧
    (∀ logs, ∀ r₁ r₂ : FSM, r₁ = NewFSM → r₂ = NewFSM →
      applyAll J r₁ logs = applyAll J r₂ logs) := by
  refine ⟨fun log => Apply_congr J f g log h, fun logs => ⟨?_, applyAll_congr J logs f g h⟩,
    fun logs r₁ r₂ h₁ h₂ => by rw [h₁, h₂]⟩
  induction logs generalizing f g with
  | nil => rfl
  | cons log rest ih =>
    unfold applyResults
    rw [(Apply_congr J f g log h).1, ih _ _ (Apply_congr J f g log h).2]

theorem sameStore_replicas : SameStore replicaA replicaB := by
  refine ⟨fun k => ?_, fun _ => rfl, fun _ => rfl, rfl⟩
  unfold replicaA replicaB GoMap.get?
  dsimp only
  unfold GoMap.lookup GoMap.lookup GoMap.lookup
  by_cases h1 : "p1" = k
  · subst h1
    simp
  · by_cases h2 : "p2" = k
    · subst h2
      simp
    · simp [h1, h2]

/-- Witness for C16: `replicaA` and `replicaB` lay out their printer map differently and
hold the same state; a print job on printer p2 is accepted on both. -/
theorem apply_deterministic_witness :
    SameStore replicaA replicaB ∧ replicaA.Printers ≠ replicaB.Printers ∧
    (Apply treeJson replicaA (cmdJobOf "j2" 100)).2 =
      (Apply treeJson replicaB (cmdJobOf "j2" 100)).2 ∧
    SameStore (Apply treeJson replicaA (cmdJobOf "j2" 100)).1
      (Apply treeJson replicaB (cmdJobOf "j2" 100)).1 :=
  ⟨sameStore_replicas, by decide,
    (apply_deterministic treeJson replicaA replicaB sameStore_replicas).1 (cmdJobOf "j2" 100)⟩

/-! ## C17: creation of a printer -/

/-- C17. A decoded `CreatePrinter` command is rejected, with "missing printer fields",
exactly when its id, company or model is empty, and is accepted otherwise; an accepted
command stores the decoded printer under its id, leaves the printers under every other
id as they were, and leaves the `Filaments` and `PrintJobs` maps unchanged. -/
theorem create_printer_contract {Raw : Type} (J : Json Raw) (f : FSM) (log : Raw)
    (entry : LogEntry) (p : Printer)
    (hentry : J.unmarshalEntry log = .ok entry)
    (htyp : entry.Typ = "CreatePrinter")
    (hp : J.unmarshalPrinter entry.Data = some p) :
    ((Apply J f log).2 = .str "missing printer fields" ↔
      (p.ID = "" ∨ p.Company = "" ∨ p.Model = "")) ∧
    ((Apply J f log).2 = .nil ↔ ¬ (p.ID = "" ∨ p.Company = "" ∨ p.Model = "")) ∧
    ((Apply J f log).2 = .nil →
      (Apply J f log).1.Printers.get? p.ID = some p ∧
      (∀ k, k ≠ p.ID → (Apply J f log).1.Printers.get? k = f.Printers.get? k) ∧
      (Apply J f log).1.Filaments = f.Filaments ∧
      (Apply J f log).1.PrintJobs = f.PrintJobs) := by
  rw [Apply_createPrinter J f log entry hentry htyp]
  unfold applyCreatePrinter
  simp only [hp]
  by_cases hc : p.ID = "" ∨ p.Company = "" ∨ p.Model = ""
  · rw [if_pos hc]
    dsimp only
    exact ⟨⟨fun _ => hc, fun _ => rfl⟩, ⟨(fun h => by cases h), fun h => absurd hc h⟩,
      fun h => by cases h⟩
  · rw [if_neg hc]
    dsimp only
    exact ⟨⟨(fun h => by cases h), fun h => absurd h hc⟩, ⟨fun _ => hc, fun _ => rfl⟩,
      fun _ => ⟨GoMap.get?_set_self _ _ _,
        fun k hk => GoMap.get?_set_ne _ _ _ _ (Ne.symm hk), rfl, rfl⟩⟩

/-- Witness for C17: printer p1 created in the empty store. -/
theorem create_printer_contract_witness :
    (treeJson.unmarshalEntry cmdPrinter1 =
        .ok ⟨"CreatePrinter", .obj [("id", .str "p1"), ("company", .str "Prusa"),
          ("model", .str "MK4")]⟩ ∧
      treeJson.unmarshalPrinter (.obj [("id", .str "p1"), ("company", .str "Prusa"),
          ("model", .str "MK4")]) = some ⟨"p1", "Prusa", "MK4"⟩) ∧
    ((Apply treeJson NewFSM cmdPrinter1).2 = .str "missing printer fields" ↔
      ("p1" = "" ∨ "Prusa" = "" ∨ "MK4" = "")) ∧
    ((Apply treeJson NewFSM cmdPrinter1).2 = .nil ↔
      ¬ ("p1" = "" ∨ "Prusa" = "" ∨ "MK4" = "")) ∧
    ((Apply treeJson NewFSM cmdPrinter1).2 = .nil →
      (Apply treeJson NewFSM cmdPrinter1).1.Printers.get? "p1" = some ⟨"p1", "Prusa", "MK4"⟩ ∧
      (∀ k, k ≠ "p1" →
        (Apply treeJson NewFSM cmdPrinter1).1.Printers.get? k = NewFSM.Printers.get? k) ∧
      (Apply treeJson NewFSM cmdPrinter1).1.Filaments = NewFSM.Filaments ∧
      (Apply treeJson NewFSM cmdPrinter1).1.PrintJobs = NewFSM.PrintJobs) :=
  ⟨⟨rfl, rfl⟩,
    create_printer_contract treeJson NewFSM cmdPrinter1
      ⟨"CreatePrinter", .obj [("id", .str "p1"), ("company", .str "Prusa"),
          ("model", .str "MK4")]⟩
      ⟨"p1", "Prusa", "MK4"⟩ rfl rfl rfl⟩

/-! ## C18: a print job for an unknown printer -/

/-- C18. A decoded `CreatePrintJob` command whose printer id is not a key of `Printers`
is answered with exactly "printer not found", whatever its filament id and weight, and
the three maps are unchanged: no job is created. -/
theorem unknown_printer_rejected_first {Raw : Type} (J : Json Raw) (f : FSM) (log : Raw)
    (entry : LogEntry) (job : PrintJob)
    (hentry : J.unmarshalEntry log = .ok entry)
    (htyp : entry.Typ = "CreatePrintJob")
    (hjob : J.unmarshalPrintJob entry.Data = some job)
    (hprinter : f.Printers.get? job.PrinterID = none) :
    (Apply J f log).2 = .str "printer not found" ∧
    (Apply J f log).1.PrintJobs = f.PrintJobs ∧
    (Apply J f log).1.Printers = f.Printers ∧
    (Apply J f log).1.Filaments = f.Filaments := by
  rw [Apply_createPrintJob J f log entry hentry htyp]
  unfold applyCreatePrintJob
  simp only [hjob, hprinter]
  exact ⟨trivial, trivial, trivial, trivial⟩

/-- Witness for C18 (scenario 2 of the specification): job j1 of 1200 g for printer p1
in the empty store. -/
theorem unknown_printer_rejected_first_witness :
    (treeJson.unmarshalEntry (cmdJobOf "j1" 1200) =
        .ok ⟨"CreatePrintJob", .obj [("id", .str "j1"), ("printer_id", .str "p1"),
          ("filament_id", .str "f1"), ("filepath", .str "a.gcode"),
          ("print_weight_in_grams", .num 1200)]⟩ ∧
      treeJson.unmarshalPrintJob (.obj [("id", .str "j1"), ("printer_id", .str "p1"),
          ("filament_id", .str "f1"), ("filepath", .str "a.gcode"),
          ("print_weight_in_grams", .num 1200)]) =
        some ⟨"j1", "p1", "f1", "a.gcode", 1200, ""⟩ ∧
      NewFSM.Printers.get? "p1" = none) ∧
    (Apply treeJson NewFSM (cmdJobOf "j1" 1200)).2 = .str "printer not found" ∧
    (Apply treeJson NewFSM (cmdJobOf "j1" 1200)).1.PrintJobs = NewFSM.PrintJobs ∧
    (Apply treeJson NewFSM (cmdJobOf "j1" 1200)).1.Printers = NewFSM.Printers ∧
    (Apply treeJson NewFSM (cmdJobOf "j1" 1200)).1.Filaments = NewFSM.Filaments :=
  ⟨⟨rfl, by decide, rfl⟩,
    unknown_printer_rejected_first treeJson NewFSM (cmdJobOf "j1" 1200)
      ⟨"CreatePrintJob", .obj [("id", .str "j1"), ("printer_id", .str "p1"),
          ("filament_id", .str "f1"), ("filepath", .str "a.gcode"),
          ("print_weight_in_grams", .num 1200)]⟩
      ⟨"j1", "p1", "f1", "a.gcode", 1200, ""⟩ rfl rfl (by decide) rfl⟩

/-! ## C19: an unknown kind -/

/-- C19. A decoded command whose type is none of `CreatePrinter`, `CreateFilament`,
`CreatePrintJob` and `UpdatePrintJobStatus` is answered with the reason "unknown log
entry type", whatever its payload; the three maps are unchanged. -/
theorem unknown_kind_rejected {Raw : Type} (J : Json Raw) (f : FSM) (log : Raw)
    (entry : LogEntry)
    (hentry : J.unmarshalEntry log = .ok entry)
    (h1 : entry.Typ ≠ "CreatePrinter") (h2 : entry.Typ ≠ "CreateFilament")
    (h3 : entry.Typ ≠ "CreatePrintJob") (h4 : entry.Typ ≠ "UpdatePrintJobStatus") :
    (Apply J f log).2 = .str "unknown log entry type" ∧
    (Apply J f log).1.Printers = f.Printers ∧
    (Apply J f log).1.Filaments = f.Filaments ∧
    (Apply J f log).1.PrintJobs = f.PrintJobs := by
  rw [Apply_unknown J f log entry hentry h1 h2 h3 h4]
  exact ⟨rfl, rfl, rfl, rfl⟩

/-- Witness for C19: a `DeletePrinter` command on `doneStore`. -/
theorem unknown_kind_rejected_witness :
    (treeJson.unmarshalEntry (cmd "DeletePrinter" [("id", .str "p1")]) =
        .ok ⟨"DeletePrinter", .obj [("id", .str "p1")]⟩ ∧
      "DeletePrinter" ≠ "CreatePrinter" ∧ "DeletePrinter" ≠ "CreateFilament" ∧
      "DeletePrinter" ≠ "CreatePrintJob" ∧ "DeletePrinter" ≠ "UpdatePrintJobStatus") ∧
    (Apply treeJson doneStore (cmd "DeletePrinter" [("id", .str "p1")])).2 =
      .str "unknown log entry type" ∧
    (Apply treeJson doneStore (cmd "DeletePrinter" [("id", .str "p1")])).1.Printers =
      doneStore.Printers ∧
    (Apply treeJson doneStore (cmd "DeletePrinter" [("id", .str "p1")])).1.Filaments =
      doneStore.Filaments ∧
    (Apply treeJson doneStore (cmd "DeletePrinter" [("id", .str "p1")])).1.PrintJobs =
      doneStore.PrintJobs :=
  ⟨⟨rfl, by decide, by decide, by decide, by decide⟩,
    unknown_kind_rejected treeJson doneStore (cmd "DeletePrinter" [("id", .str "p1")])
      ⟨"DeletePrinter", .obj [("id", .str "p1")]⟩ rfl (by decide) (by decide) (by decide)
      (by decide)⟩

/-! ## C20: references and keys -/

theorem GoMap.isSome_set {V : Type} (m : GoMap V) (k k' : String) (v : V)
    (h : (m.get? k').isSome) : ((m.set k v).get? k').isSome := by
  rw [GoMap.get?_set]
  split
  · rfl
  · exact h

theorem deductFilament_isSome (fils : GoMap Filament) (pj : PrintJob) (k : String)
    (h : (fils.get? k).isSome) : ((deductFilament fils pj).get? k).isSome := by
  unfold deductFilament
  cases fils.get? pj.FilamentID with
  | none => exact h
  | some fil => exact GoMap.isSome_set _ _ _ _ h

/-- No `Apply` removes a key from any of the three maps. -/
theorem Apply_keeps_keys {Raw : Type} (J : Json Raw) (f : FSM) (log : Raw) (k : String) :
    ((f.Printers.get? k).isSome → ((Apply J f log).1.Printers.get? k).isSome) ∧
    ((f.Filaments.get? k).isSome → ((Apply J f log).1.Filaments.get? k).isSome) ∧
    ((f.PrintJobs.get? k).isSome → ((Apply J f log).1.PrintJobs.get? k).isSome) := by
  rcases Apply_entities J f log with ⟨hp, hf, hj⟩ | ⟨p, hp, hf, hj⟩ |
    ⟨fil, _, _, hp, hf, hj⟩ |
    ⟨job, p, fil, _, _, _, _, _, _, hp, hf, hj⟩ |
    ⟨upd, pj, _, _, _, hp, hf, hj⟩
  · rw [hp, hf, hj]
    exact ⟨id, id, id⟩
  · rw [hp, hf, hj]
    exact ⟨GoMap.isSome_set _ _ _ _, id, id⟩
  · rw [hp, hf, hj]
    exact ⟨id, GoMap.isSome_set _ _ _ _, id⟩
  · rw [hp, hf, hj]
    exact ⟨id, id, GoMap.isSome_set _ _ _ _⟩
  · rw [hp, hf, hj]
    refine ⟨id, fun h => ?_, GoMap.isSome_set _ _ _ _⟩
    split
    · exact deductFilament_isSome _ _ _ h
    · exact h

theorem refsOk_Apply {Raw : Type} (J : Json Raw) (f : FSM) (log : Raw) (h : RefsOk f) :
    RefsOk (Apply J f log).1 := by
  intro k pj hk
  have hold : ∀ pj₀ : PrintJob, ((f.Printers.get? pj₀.PrinterID).isSome ∧
      (f.Filaments.get? pj₀.FilamentID).isSome) →
      ((Apply J f log).1.Printers.get? pj₀.PrinterID).isSome ∧
      ((Apply J f log).1.Filaments.get? pj₀.FilamentID).isSome :=
    fun pj₀ h₀ => ⟨(Apply_keeps_keys J f log _).1 h₀.1, (Apply_keeps_keys J f log _).2.1 h₀.2⟩
  rcases Apply_entities J f log with ⟨_, _, hj⟩ | ⟨p, _, _, hj⟩ |
    ⟨fil, _, _, _, _, hj⟩ |
    ⟨job, p, fil, _, hp, hfil, _, _, _, _, _, hj⟩ |
    ⟨upd, pj₀, _, hpj₀, _, _, _, hj⟩
  · rw [hj] at hk
    exact hold pj (h k pj hk)
  · rw [hj] at hk
    exact hold pj (h k pj hk)
  · rw [hj] at hk
    exact hold pj (h k pj hk)
  · rw [hj, GoMap.get?_set] at hk
    split at hk
    · cases hk
      exact hold { job with Status := "Queued" } ⟨by rw [hp]; rfl, by rw [hfil]; rfl⟩
    · exact hold pj (h k pj hk)
  · rw [hj, GoMap.get?_set] at hk
    split at hk
    · cases hk
      exact hold { pj₀ with Status := upd.Status } (h _ pj₀ hpj₀)
    · exact hold pj (h k pj hk)

/-- C20. In every state reachable from `NewFSM()` by `Apply` calls, every print job's
printer id is a key of `Printers` and its filament id is a key of `Filaments`; and for
every state and log entry, every key of `Printers`, `Filaments` and `PrintJobs` before
`Apply` is still a key after it. -/
theorem referential_integrity {Raw : Type} (J : Json Raw) :
    (∀ f, Reachable J f → ∀ k pj, f.PrintJobs.get? k = some pj →
      (f.Printers.get? pj.PrinterID).isSome ∧ (f.Filaments.get? pj.FilamentID).isSome) ∧
    (∀ (f : FSM) (log : Raw) (k : String),
      ((f.Printers.get? k).isSome → ((Apply J f log).1.Printers.get? k).isSome) ∧
      ((f.Filaments.get? k).isSome → ((Apply J f log).1.Filaments.get? k).isSome) ∧
      ((f.PrintJobs.get? k).isSome → ((Apply J f log).1.PrintJobs.get? k).isSome)) := by
  refine ⟨fun f hreach => ?_, fun f log k => Apply_keeps_keys J f log k⟩
  induction hreach with
  | init =>
    intro k pj hk
    cases hk
  | step f log _ ih => exact refsOk_Apply J f log ih

/-- Witness for C20: job j1 of the reachable `doneStore` refers to printer p1 and
filament f1, both present. -/
theorem referential_integrity_witness :
    (Reachable treeJson doneStore ∧
      doneStore.PrintJobs.get? "j1" = some ⟨"j1", "p1", "f1", "a.gcode", 300, "Done"⟩) ∧
    (doneStore.Printers.get? "p1").isSome ∧ (doneStore.Filaments.get? "f1").isSome :=
  have hreach : Reachable treeJson doneStore :=
    Reachable.step _ _ (Reachable.step _ _ (Reachable.step _ _ (Reachable.step _ _
      (Reachable.step _ _ Reachable.init))))
  ⟨⟨hreach, by decide⟩,
    (referential_integrity treeJson).1 doneStore hreach "j1"
      ⟨"j1", "p1", "f1", "a.gcode", 300, "Done"⟩ (by decide)⟩

end Raft3D
